import Mathlib

/-!
Verification of the telegram-ultra media worker (Python source) against its
natural-language specification.  Strings are modelled as `List Char`; the
regular-expression searches of the source are embedded as direct scanners
with Python `re.search` leftmost-match semantics.
-/

set_option maxRecDepth 10000

/-- Character class `[a-zA-Z0-9_-]` used by the playlist-URL regexes. -/
def isIdChar (c : Char) : Bool :=
  ('a' ≤ c && c ≤ 'z') || ('A' ≤ c && c ≤ 'Z') || ('0' ≤ c && c ≤ '9') || c == '_' || c == '-'

/-- `litMatch pat l` : the literal `pat` matches at the head of `l`. -/
def litMatch : List Char → List Char → Bool
  | [], _ => true
  | _ :: _, [] => false
  | p :: ps, c :: cs => p == c && litMatch ps cs

/-- Maximal run of `[a-zA-Z0-9_-]` characters at the head of the list
(the greedy `[a-zA-Z0-9_-]+` of the Radio-Mix regex), with the rest. -/
def takeIdRun : List Char → List Char × List Char
  | [] => ([], [])
  | c :: cs =>
    if isIdChar c then
      let r := takeIdRun cs
      (c :: r.1, r.2)
    else ([], c :: cs)

/-- Exactly `n` `[a-zA-Z0-9_-]` characters at the head of the list
(the `[a-zA-Z0-9_-]{11}` of the seed-video regex). -/
def takeIdExact : Nat → List Char → Option (List Char)
  | 0, _ => some []
  | _ + 1, [] => none
  | n + 1, c :: cs =>
    if isIdChar c then (takeIdExact n cs).map (c :: ·) else none

/-- Try the pattern `list=(RD([a-zA-Z0-9_-]+))` at the head of the list;
returns (group 1, group 2) = (`RD` + run, run). -/
def tryRadioAt (l : List Char) : Option (List Char × List Char) :=
  if litMatch ("list=RD".toList) l then
    if (takeIdRun (l.drop 7)).1.isEmpty then none
    else some ('R' :: 'D' :: (takeIdRun (l.drop 7)).1, (takeIdRun (l.drop 7)).1)
  else none

/-- `re.search(r'list=(RD([a-zA-Z0-9_-]+))', url)` : leftmost match. -/
def radioSearch : List Char → Option (List Char × List Char)
  | [] => none
  | c :: cs =>
    match tryRadioAt (c :: cs) with
    | some r => some r
    | none => radioSearch cs

/-- Try the pattern `v=([a-zA-Z0-9_-]{11})` at the head of the list. -/
def tryVAt : List Char → Option (List Char)
  | c :: e :: rest => if c = 'v' ∧ e = '=' then takeIdExact 11 rest else none
  | _ => none

/-- `re.search(r'v=([a-zA-Z0-9_-]{11})', url)` : leftmost match. -/
def vSearch : List Char → Option (List Char)
  | [] => none
  | c :: cs =>
    match tryVAt (c :: cs) with
    | some r => some r
    | none => vSearch cs

/-- `list_id.startswith(('RDMM', 'RDAM', 'RDCLAK'))`. -/
def isSpecialRadio (listId : List Char) : Bool :=
  litMatch ("RDMM".toList) listId || litMatch ("RDAM".toList) listId ||
    litMatch ("RDCLAK".toList) listId

/-- The reconstructed Radio-Mix URL
`https://www.youtube.com/watch?v={video_id}&list=RD{video_id}&start_radio=1`. -/
def canonicalRadioUrl (videoId : List Char) : List Char :=
  "https://www.youtube.com/watch?v=".toList ++ videoId ++
    "&list=RD".toList ++ videoId ++ "&start_radio=1".toList

/-- `normalize_playlist_url` from `worker/playlist_dl.py` (the copy used by the
playlist download handler). -/
def normalize_playlist_url (url : List Char) : List Char :=
  match radioSearch url with
  | none => url
  | some (listId, listSuffix) =>
    if isSpecialRadio listId then url
    else
      match vSearch url with
      | some videoId => canonicalRadioUrl videoId
      | none =>
        if listSuffix.length = 11 then canonicalRadioUrl listSuffix else url

/-- `normalize_playlist_url` from `worker/playlist_utils.py` (the divergent
copy used by the playlist-preview path): no 11-character validation and no
special-prefix preservation. -/
def PlaylistUtils.normalize_playlist_url (url : List Char) : List Char :=
  match radioSearch url with
  | some (fullListId, videoId) =>
    if decide ("start_radio=1".toList <:+: url) &&
        decide (('v' :: '=' :: videoId) <:+: url) then url
    else
      "https://www.youtube.com/watch?v=".toList ++ videoId ++
        "&list=".toList ++ fullListId ++ "&start_radio=1".toList
  | none => url

lemma listRD_lit : "list=RD".toList = ['l', 'i', 's', 't', '=', 'R', 'D'] := by decide

lemma takeIdRun_all : ∀ l : List Char, (takeIdRun l).1.all isIdChar = true := by
  intro l
  induction l with
  | nil => rfl
  | cons c cs ih =>
    by_cases hc : isIdChar c = true
    · simp [takeIdRun, hc, ih]
    · simp [takeIdRun, Bool.eq_false_iff.mpr hc]

lemma takeIdRun_append (vid : List Char) (c : Char) (r : List Char)
    (hvid : vid.all isIdChar = true) (hc : isIdChar c = false) :
    takeIdRun (vid ++ c :: r) = (vid, c :: r) := by
  induction vid with
  | nil => simp [takeIdRun, hc]
  | cons a vid ih =>
    simp only [List.all_cons, Bool.and_eq_true] at hvid
    simp [takeIdRun, hvid.1, ih hvid.2]

lemma takeIdExact_spec : ∀ {n : Nat} {l v : List Char}, takeIdExact n l = some v →
    v.length = n ∧ v.all isIdChar = true := by
  intro n
  induction n with
  | zero => intro l v h; simp only [takeIdExact, Option.some.injEq] at h; subst h; exact ⟨rfl, rfl⟩
  | succ m ih =>
    intro l v h
    match l with
    | [] => simp [takeIdExact] at h
    | c :: cs =>
      by_cases hc : isIdChar c = true
      · rw [takeIdExact, if_pos hc, Option.map_eq_some'] at h
        obtain ⟨w, hw, hv⟩ := h
        subst hv
        have hws := ih hw
        simp [hws.1, hws.2, hc]
      · simp [takeIdExact, hc] at h

lemma takeIdExact_append : ∀ (vid rest : List Char), vid.all isIdChar = true →
    takeIdExact vid.length (vid ++ rest) = some vid := by
  intro vid
  induction vid with
  | nil => intro rest _; rfl
  | cons a vid ih =>
    intro rest hv
    simp only [List.all_cons, Bool.and_eq_true] at hv
    simp [takeIdExact, hv.1, ih rest hv.2]

lemma tryRadioAt_spec {l lid sfx : List Char} (h : tryRadioAt l = some (lid, sfx)) :
    lid = 'R' :: 'D' :: sfx ∧ sfx ≠ [] ∧ sfx.all isIdChar = true := by
  unfold tryRadioAt at h
  split at h
  · split at h
    · exact absurd h (by simp)
    · rename_i he
      simp only [Option.some.injEq, Option.some.injEq, Prod.mk.injEq] at h
      obtain ⟨h1, h2⟩ := h
      subst h2
      exact ⟨h1.symm, by simpa [List.isEmpty_iff] using he, takeIdRun_all _⟩
  · exact absurd h (by simp)

lemma radioSearch_spec : ∀ {u lid sfx : List Char},
    radioSearch u = some (lid, sfx) →
    lid = 'R' :: 'D' :: sfx ∧ sfx ≠ [] ∧ sfx.all isIdChar = true := by
  intro u
  induction u with
  | nil => intro lid sfx h; simp [radioSearch] at h
  | cons c cs ih =>
    intro lid sfx h
    simp only [radioSearch] at h
    cases htry : tryRadioAt (c :: cs) with
    | none => rw [htry] at h; exact ih h
    | some r => rw [htry] at h; cases h; exact tryRadioAt_spec htry

lemma tryVAt_spec : ∀ {l vid : List Char}, tryVAt l = some vid →
    vid.length = 11 ∧ vid.all isIdChar = true := by
  intro l vid h
  match l with
  | [] => simp [tryVAt] at h
  | [c] => simp [tryVAt] at h
  | c :: e :: rest =>
    rw [show tryVAt (c :: e :: rest) =
        if c = 'v' ∧ e = '=' then takeIdExact 11 rest else none from rfl] at h
    by_cases hc : c = 'v' ∧ e = '='
    · rw [if_pos hc] at h; exact takeIdExact_spec h
    · rw [if_neg hc] at h; exact absurd h (by simp)

lemma vSearch_spec : ∀ {u vid : List Char}, vSearch u = some vid →
    vid.length = 11 ∧ vid.all isIdChar = true := by
  intro u
  induction u with
  | nil => intro vid h; simp [vSearch] at h
  | cons c cs ih =>
    intro vid h
    simp only [vSearch] at h
    cases htry : tryVAt (c :: cs) with
    | none => rw [htry] at h; exact ih h
    | some r => rw [htry] at h; cases h; exact tryVAt_spec htry

lemma litMatch_self_append : ∀ (p t : List Char), litMatch p (p ++ t) = true := by
  intro p t
  induction p with
  | nil => rfl
  | cons c cs ih => simp [litMatch, ih]

lemma litMatch_listRD_idrun : ∀ (d r : List Char), d.all isIdChar = true →
    litMatch ("list=RD".toList) (d ++ '&' :: r) = false := by
  intro d r hd
  rw [listRD_lit]
  match d, hd with
  | [], _ => simp [litMatch]
  | [a], _ => simp [litMatch]
  | [a, b], _ => simp [litMatch]
  | [a, b, c], _ => simp [litMatch]
  | [a, b, c, e], _ => simp [litMatch]
  | a :: b :: c :: e :: f :: d5, hd =>
    have hf : isIdChar f = true := by
      simp only [List.all_cons, Bool.and_eq_true] at hd
      exact hd.2.2.2.2.1
    have hne : (('=' : Char) == f) = false := by
      rw [beq_eq_false_iff_ne]
      intro heq
      rw [← heq] at hf
      exact absurd hf (by decide)
    simp [litMatch, hne]

lemma tryRadioAt_idrun (d r : List Char) (hd : d.all isIdChar = true) :
    tryRadioAt (d ++ '&' :: r) = none := by
  have hcond : ¬(litMatch ("list=RD".toList) (d ++ '&' :: r) = true) := by
    rw [litMatch_listRD_idrun d r hd]; exact Bool.false_ne_true
  unfold tryRadioAt
  rw [if_neg hcond]

lemma radioSearch_cons_of_none {c : Char} {l : List Char}
    (h : tryRadioAt (c :: l) = none) : radioSearch (c :: l) = radioSearch l := by
  simp [radioSearch, h]

lemma radioSearch_cons_of_some {c : Char} {l : List Char} {r : List Char × List Char}
    (h : tryRadioAt (c :: l) = some r) : radioSearch (c :: l) = some r := by
  simp [radioSearch, h]

lemma listRD_cons (Y : List Char) :
    "list=RD".toList ++ Y = 'l' :: ("ist=RD".toList ++ Y) := by
  rw [listRD_lit, show "ist=RD".toList = ['i', 's', 't', '=', 'R', 'D'] from by decide]
  rfl

lemma radioSearch_skip_idrun : ∀ (d r : List Char), d.all isIdChar = true →
    radioSearch (d ++ '&' :: r) = radioSearch ('&' :: r) := by
  intro d
  induction d with
  | nil => intro r _; rfl
  | cons a d ih =>
    intro r hd
    have hnone : tryRadioAt ((a :: d) ++ '&' :: r) = none := tryRadioAt_idrun (a :: d) r hd
    rw [List.cons_append] at hnone ⊢
    rw [radioSearch_cons_of_none hnone]
    simp only [List.all_cons, Bool.and_eq_true] at hd
    exact ih r hd.2

lemma radioSearch_cons_ne_l {c : Char} (l : List Char) (hc : c ≠ 'l') :
    radioSearch (c :: l) = radioSearch l := by
  apply radioSearch_cons_of_none
  have hb : (('l' : Char) == c) = false := by
    rw [beq_eq_false_iff_ne]; exact fun h => hc h.symm
  simp [tryRadioAt, listRD_lit, litMatch, hb]

lemma radioSearch_append_no_l : ∀ (p X : List Char), (∀ c ∈ p, c ≠ 'l') →
    radioSearch (p ++ X) = radioSearch X := by
  intro p
  induction p with
  | nil => intro X _; rfl
  | cons a p ih =>
    intro X hp
    rw [List.cons_append, radioSearch_cons_ne_l _ (hp a (by simp))]
    exact ih X fun c hc => hp c (by simp [hc])

lemma tryVAt_cons_ne_v {c : Char} (l : List Char) (hc : c ≠ 'v') :
    tryVAt (c :: l) = none := by
  match l with
  | [] => rfl
  | e :: rest => exact if_neg fun hand => hc hand.1

lemma vSearch_cons_of_none {c : Char} {l : List Char}
    (h : tryVAt (c :: l) = none) : vSearch (c :: l) = vSearch l := by
  simp [vSearch, h]

lemma vSearch_cons_of_some {c : Char} {l r : List Char}
    (h : tryVAt (c :: l) = some r) : vSearch (c :: l) = some r := by
  simp [vSearch, h]

lemma vSearch_append_no_v : ∀ (p X : List Char), (∀ c ∈ p, c ≠ 'v') →
    vSearch (p ++ X) = vSearch X := by
  intro p
  induction p with
  | nil => intro X _; rfl
  | cons a p ih =>
    intro X hp
    rw [List.cons_append, vSearch_cons_of_none (tryVAt_cons_ne_v _ (hp a (by simp)))]
    exact ih X fun c hc => hp c (by simp [hc])

lemma ampListRD_lit : "&list=RD".toList = '&' :: "list=RD".toList := by decide

lemma ampStartRadio_lit : "&start_radio=1".toList = '&' :: "start_radio=1".toList := by decide

lemma watchV_lit :
    "https://www.youtube.com/watch?v=".toList =
      "https://www.youtube.com/watch?".toList ++ ['v', '='] := by decide

lemma radioSearch_canonical (vid : List Char) (hall : vid.all isIdChar = true)
    (hne : vid ≠ []) :
    radioSearch (canonicalRadioUrl vid) = some ('R' :: 'D' :: vid, vid) := by
  have hd : canonicalRadioUrl vid =
      "https://www.youtube.com/watch?v=".toList ++
        (vid ++ ('&' :: ("list=RD".toList ++ (vid ++ "&start_radio=1".toList)))) := by
    rw [canonicalRadioUrl, ampListRD_lit]
    simp [List.append_assoc]
  rw [hd, radioSearch_append_no_l _ _ (by decide),
    radioSearch_skip_idrun vid _ hall, radioSearch_cons_ne_l _ (by decide)]
  have hrun : takeIdRun (vid ++ "&start_radio=1".toList) = (vid, "&start_radio=1".toList) := by
    rw [ampStartRadio_lit]
    exact takeIdRun_append vid '&' _ hall (by decide)
  have hdrop : ("list=RD".toList ++ (vid ++ "&start_radio=1".toList)).drop 7 =
      vid ++ "&start_radio=1".toList := by
    rw [listRD_lit]; rfl
  have htry : tryRadioAt ("list=RD".toList ++ (vid ++ "&start_radio=1".toList)) =
      some ('R' :: 'D' :: vid, vid) := by
    have hvempty : ¬(vid.isEmpty = true) := by simp [List.isEmpty_iff, hne]
    unfold tryRadioAt
    rw [hdrop, hrun, if_pos (litMatch_self_append _ _), if_neg hvempty]
  rw [listRD_cons]
  apply radioSearch_cons_of_some
  rw [← listRD_cons]
  exact htry

lemma vSearch_canonical (vid : List Char) (hall : vid.all isIdChar = true)
    (hlen : vid.length = 11) :
    vSearch (canonicalRadioUrl vid) = some vid := by
  have hd : canonicalRadioUrl vid =
      "https://www.youtube.com/watch?".toList ++
        ('v' :: '=' :: (vid ++ ("&list=RD".toList ++ (vid ++ "&start_radio=1".toList)))) := by
    rw [canonicalRadioUrl, watchV_lit]
    simp [List.append_assoc]
  rw [hd, vSearch_append_no_v _ _ (by decide)]
  have h11 : takeIdExact 11 (vid ++ ("&list=RD".toList ++ (vid ++ "&start_radio=1".toList))) =
      some vid := by
    rw [← hlen]; exact takeIdExact_append vid _ hall
  apply vSearch_cons_of_some
  rw [show tryVAt ('v' :: '=' :: (vid ++ ("&list=RD".toList ++ (vid ++ "&start_radio=1".toList)))) =
      if ('v' : Char) = 'v' ∧ ('=' : Char) = '='
      then takeIdExact 11 (vid ++ ("&list=RD".toList ++ (vid ++ "&start_radio=1".toList)))
      else none from rfl, if_pos ⟨rfl, rfl⟩]
  exact h11

lemma normalize_canonical_fix (vid : List Char) (hall : vid.all isIdChar = true)
    (hlen : vid.length = 11) :
    normalize_playlist_url (canonicalRadioUrl vid) = canonicalRadioUrl vid := by
  have hne : vid ≠ [] := by rintro rfl; simp at hlen
  simp only [normalize_playlist_url, radioSearch_canonical vid hall hne]
  by_cases hs : isSpecialRadio ('R' :: 'D' :: vid) = true
  · rw [if_pos hs]
  · rw [if_neg hs, vSearch_canonical vid hall hlen]

/-!
## Progress parsing (`worker/progress_hooks.py`)

`ProgressParser.parse_line` is a line-oriented state machine over regex
searches; the searches are embedded with `re.search` leftmost-match
semantics.  Machine integers are `Nat`; `int(float("d1.d2"))` is the value
of the digits before the dot (truncation; exact for the short percent
strings yt-dlp emits).
-/

/-- Python `\s` on the ASCII range relevant to yt-dlp output. -/
def isSpace (c : Char) : Bool :=
  c == ' ' || c == '\t' || c == '\n' || c == '\r' || c == '\x0b' || c == '\x0c'

/-- Value of a digit string. -/
def digitsToNat (l : List Char) : Nat :=
  l.foldl (fun n c => n * 10 + (c.toNat - '0'.toNat)) 0

/-- `line.strip()`. -/
def pyStrip (l : List Char) : List Char :=
  ((l.dropWhile isSpace).reverse.dropWhile isSpace).reverse

/-- ASCII `str.upper()`. -/
def asciiUpper (l : List Char) : List Char :=
  l.map fun c => if 'a' ≤ c && c ≤ 'z' then Char.ofNat (c.toNat - 32) else c

/-- ASCII `str.lower()`. -/
def asciiLower (l : List Char) : List Char :=
  l.map fun c => if 'A' ≤ c && c ≤ 'Z' then Char.ofNat (c.toNat + 32) else c

/-- Remainder after the first occurrence of `pat` (`re`-style scan). -/
def subSearch (pat : List Char) : List Char → Option (List Char)
  | [] => if litMatch pat [] then some [] else none
  | c :: cs =>
    if litMatch pat (c :: cs) then some ((c :: cs).drop pat.length)
    else subSearch pat cs

/-- Python `pat in line` (substring containment). -/
def containsSub (pat l : List Char) : Bool :=
  (subSearch pat l).isSome

/-- Match `\[download\]\s+(\d+\.\d+)%` at the head of the list; returns the
truncated percent and the remainder after `%`. -/
def tryPercentAt (l : List Char) : Option (Nat × List Char) :=
  if litMatch ("[download]".toList) l then
    let r1 := l.drop 10
    if (r1.takeWhile isSpace).isEmpty then none
    else
      let r2 := r1.dropWhile isSpace
      let d1 := r2.takeWhile Char.isDigit
      if d1.isEmpty then none
      else
        match r2.dropWhile Char.isDigit with
        | '.' :: r3 =>
          if (r3.takeWhile Char.isDigit).isEmpty then none
          else
            match r3.dropWhile Char.isDigit with
            | '%' :: r4 => some (digitsToNat d1, r4)
            | _ => none
        | _ => none
  else none

/-- Match `at\s+(\S+)\s+ETA\s+(\S+)` at the head of the list; returns
(speed, eta). -/
def tryAtTail (l : List Char) : Option (List Char × List Char) :=
  if litMatch ("at".toList) l then
    let r1 := l.drop 2
    if (r1.takeWhile isSpace).isEmpty then none
    else
      let r2 := r1.dropWhile isSpace
      let speed := r2.takeWhile (fun c => !isSpace c)
      if speed.isEmpty then none
      else
        let r3 := r2.dropWhile (fun c => !isSpace c)
        if (r3.takeWhile isSpace).isEmpty then none
        else
          let r4 := r3.dropWhile isSpace
          if litMatch ("ETA".toList) r4 then
            let r5 := r4.drop 3
            if (r5.takeWhile isSpace).isEmpty then none
            else
              let r6 := r5.dropWhile isSpace
              let eta := r6.takeWhile (fun c => !isSpace c)
              if eta.isEmpty then none else some (speed, eta)
          else none
  else none

/-- The lazy gap `.*?` before `at\s+…`: scan forward for the first position
where `tryAtTail` succeeds. -/
def gapScanAt : List Char → Option (List Char × List Char)
  | [] => none
  | c :: cs =>
    match tryAtTail (c :: cs) with
    | some r => some r
    | none => gapScanAt cs

/-- `PATTERN_PROGRESS` =
`\[download\]\s+(\d+\.\d+)%.*?at\s+(\S+)\s+ETA\s+(\S+)` : leftmost match;
returns (percent, speed, eta). -/
def progressFullSearch : List Char → Option (Nat × List Char × List Char)
  | [] => none
  | c :: cs =>
    match tryPercentAt (c :: cs) with
    | some (p, rest) =>
      match gapScanAt rest with
      | some (speed, eta) => some (p, speed, eta)
      | none => progressFullSearch cs
    | none => progressFullSearch cs

/-- `PATTERN_DOWNLOADING` = `\[download\]\s+(\d+\.\d+)%` : leftmost match. -/
def progressSimpleSearch : List Char → Option Nat
  | [] => none
  | c :: cs =>
    match tryPercentAt (c :: cs) with
    | some (p, _) => some p
    | none => progressSimpleSearch cs

/-- `PATTERN_CONVERTING` = `\[ExtractAudio\].*Converting.*`. -/
def convertingSearch (l : List Char) : Bool :=
  match subSearch ("[ExtractAudio]".toList) l with
  | some rest => containsSub ("Converting".toList) rest
  | none => false

/-- The tag alternation `\[(?:ExtractAudio|download|Merger)\]`; returns the
remainder after the tag. -/
def tryDestTag (l : List Char) : Option (List Char) :=
  if litMatch ("[ExtractAudio]".toList) l then some (l.drop 14)
  else if litMatch ("[download]".toList) l then some (l.drop 10)
  else if litMatch ("[Merger]".toList) l then some (l.drop 8)
  else none

/-- Match `\s+Destination:\s+(.+)$` against the remainder after a tag. -/
def tryDestTail (r : List Char) : Option (List Char) :=
  if (r.takeWhile isSpace).isEmpty then none
  else
    let r2 := r.dropWhile isSpace
    if litMatch ("Destination:".toList) r2 then
      let r3 := r2.drop 12
      let k := (r3.takeWhile isSpace).length
      if k = 0 then none
      else
        let tail := r3.drop k
        if !tail.isEmpty then some tail
        else if 2 ≤ k then some (r3.drop (k - 1))
        else none
    else none

/-- `PATTERN_DESTINATION` =
`\[(?:ExtractAudio|download|Merger)\]\s+Destination:\s+(.+)$`. -/
def destinationSearch : List Char → Option (List Char)
  | [] => none
  | c :: cs =>
    match tryDestTag (c :: cs) with
    | some rest =>
      match tryDestTail rest with
      | some p => some p
      | none => destinationSearch cs
    | none => destinationSearch cs

/-- Lazy scan for `(.+?)\s+has already been downloaded` : the group grows one
character at a time (`path` accumulates in reverse). -/
def lazyPathScan (acc : List Char) : List Char → Option (List Char)
  | [] => none
  | c :: cs =>
    let acc' := c :: acc
    let ws := cs.takeWhile isSpace
    if !ws.isEmpty &&
        litMatch ("has already been downloaded".toList) (cs.dropWhile isSpace) then
      some acc'.reverse
    else lazyPathScan acc' cs

/-- Backtracking over the greedy `\s+` before the lazy group : try giving
`k` whitespace characters to `\s+` (maximal first). -/
def alreadyDownloadedWs : Nat → List Char → Option (List Char)
  | 0, _ => none
  | k + 1, r1 =>
    match lazyPathScan [] (r1.drop (k + 1)) with
    | some p => some p
    | none => alreadyDownloadedWs k r1

/-- `PATTERN_ALREADY_DOWNLOADED` =
`\[download\]\s+(.+?)\s+has already been downloaded`. -/
def alreadyDownloadedSearch : List Char → Option (List Char)
  | [] => none
  | c :: cs =>
    match
      (if litMatch ("[download]".toList) (c :: cs) then
        let r1 := (c :: cs).drop 10
        alreadyDownloadedWs (r1.takeWhile isSpace).length r1
      else none) with
    | some p => some p
    | none => alreadyDownloadedSearch cs

/-- Python `str.split(sep)` helper (keeps empty fields). -/
def pySplitCharAux (sep : Char) : List Char → List Char → List (List Char)
  | [], acc => [acc.reverse]
  | c :: cs, acc =>
    if c = sep then acc.reverse :: pySplitCharAux sep cs []
    else pySplitCharAux sep cs (c :: acc)

/-- Python `str.split(sep)`. -/
def pySplitChar (sep : Char) (l : List Char) : List (List Char) :=
  pySplitCharAux sep l []

/-- Python `int(str)` restricted to plain digit strings (the only forms the
ETA tokens take); anything else raises `ValueError` (`none`). -/
def pyInt? (s : List Char) : Option Nat :=
  if !s.isEmpty && s.all Char.isDigit then some (digitsToNat s) else none

/-- `ProgressParser.parse_eta`. -/
def parse_eta (eta : List Char) : Nat :=
  if eta.isEmpty || asciiLower eta = "unknown".toList then 0
  else
    match pySplitChar ':' eta with
    | [m, s] =>
      match pyInt? m, pyInt? s with
      | some mv, some sv => mv * 60 + sv
      | _, _ => 0
    | [h, m, s] =>
      match pyInt? h, pyInt? m, pyInt? s with
      | some hv, some mv, some sv => hv * 3600 + mv * 60 + sv
      | _, _, _ => 0
    | _ => 0

/-- The `DownloadProgress` dataclass. -/
structure DownloadProgress where
  percent : Nat := 0
  speed : List Char := "0 B/s".toList
  eta_seconds : Nat := 0
  downloaded_bytes : Nat := 0
  total_bytes : Nat := 0
  status : List Char := "pending".toList
deriving DecidableEq

/-- A Python value appearing in a progress dict. -/
inductive PyVal where
  | i (n : Nat)
  | s (v : List Char)
deriving DecidableEq

/-- `DownloadProgress.to_dict` : NOTE the keys `eta`, `downloaded`, `total`
do not coincide with the dataclass field names `eta_seconds`,
`downloaded_bytes`, `total_bytes`. -/
def DownloadProgress.to_dict (p : DownloadProgress) : List (List Char × PyVal) :=
  [("percent".toList, .i p.percent),
   ("speed".toList, .s p.speed),
   ("eta".toList, .i p.eta_seconds),
   ("downloaded".toList, .i p.downloaded_bytes),
   ("total".toList, .i p.total_bytes),
   ("status".toList, .s p.status)]

/-- Binding of one keyword argument by the generated dataclass `__init__`;
an unknown keyword raises `TypeError`. -/
def DownloadProgress.setKwarg (p : DownloadProgress) (k : List Char) (v : PyVal) :
    Except (List Char) DownloadProgress :=
  if k = "percent".toList then
    match v with
    | .i n => .ok { p with percent := n }
    | .s _ => .error ("type mismatch".toList)
  else if k = "speed".toList then
    match v with
    | .s w => .ok { p with speed := w }
    | .i _ => .error ("type mismatch".toList)
  else if k = "eta_seconds".toList then
    match v with
    | .i n => .ok { p with eta_seconds := n }
    | .s _ => .error ("type mismatch".toList)
  else if k = "downloaded_bytes".toList then
    match v with
    | .i n => .ok { p with downloaded_bytes := n }
    | .s _ => .error ("type mismatch".toList)
  else if k = "total_bytes".toList then
    match v with
    | .i n => .ok { p with total_bytes := n }
    | .s _ => .error ("type mismatch".toList)
  else if k = "status".toList then
    match v with
    | .s w => .ok { p with status := w }
    | .i _ => .error ("type mismatch".toList)
  else .error ("unexpected keyword argument ".toList ++ k)

/-- `DownloadProgress(**kwargs)` : bind each keyword in turn, defaults for
the rest. -/
def DownloadProgress.fromKwargs : DownloadProgress → List (List Char × PyVal) →
    Except (List Char) DownloadProgress
  | p, [] => .ok p
  | p, (k, v) :: rest =>
    match p.setKwarg k v with
    | .ok p' => DownloadProgress.fromKwargs p' rest
    | .error e => .error e

deriving instance DecidableEq for Except

/-- The dict returned by `ProgressParser.parse_line` : which keys are
present, and their values. -/
structure PyResult where
  progressDict : Option (List (List Char × PyVal)) := none
  destination : Option (List Char) := none
  done : Bool := false
  already_exists : Bool := false
  error : Option (List Char) := none
deriving DecidableEq

/-- `ProgressParser.parse_line` : one line of yt-dlp output against the
current progress state; returns the result dict (if any) and the updated
state (the Python code mutates `current_progress` in place). -/
def parse_line (line : List Char) (cur : DownloadProgress) :
    Option PyResult × DownloadProgress :=
  if line.isEmpty then (none, cur)
  else
    match progressFullSearch line with
    | some (p, speed, eta) =>
      let prog := { cur with
                    percent := p, speed := speed,
                    eta_seconds := parse_eta eta, status := "downloading".toList }
      (some { progressDict := some prog.to_dict }, prog)
    | none =>
      match progressSimpleSearch line with
      | some p =>
        let prog := { cur with percent := p, status := "downloading".toList }
        (some { progressDict := some prog.to_dict }, prog)
      | none =>
        if convertingSearch line then
          let prog := { cur with
                        status := "converting".toList,
                        percent := min 95 (cur.percent + 2) }
          (some { progressDict := some prog.to_dict }, prog)
        else
          match destinationSearch line with
          | some p => (some { destination := some p }, cur)
          | none =>
            match alreadyDownloadedSearch line with
            | some p => (some { destination := some p, done := true }, cur)
            | none =>
              if containsSub ("already exists".toList) line then
                (some { already_exists := true }, cur)
              else if containsSub ("[youtube]".toList) line &&
                  !containsSub ("Downloading".toList) line &&
                  !(pyStrip line).isEmpty then
                (none, cur)
              else if containsSub ("ERROR".toList) (asciiUpper line) ||
                  containsSub ("error".toList) line then
                (some { error := some (pyStrip line) }, cur)
              else if containsSub ("[download]".toList) line &&
                  containsSub ("100%".toList) line then
                let prog := { cur with percent := 100, status := "done".toList }
                (some { progressDict := some prog.to_dict, done := true }, prog)
              else (none, cur)

/-- `StreamProgressCollector` state (`throttle_threshold` is the constant 2). -/
structure StreamProgressCollector where
  current_progress : DownloadProgress := {}
  last_percent : Nat := 0
  updates_since_last_emit : Nat := 0
deriving DecidableEq

/-- `StreamProgressCollector.process_line` : `Except` models the `TypeError`
raised by `DownloadProgress(**(result['progress']))`. -/
def StreamProgressCollector.process_line (c : StreamProgressCollector)
    (line : List Char) :
    Except (List Char) (Option PyResult × StreamProgressCollector) :=
  match parse_line line c.current_progress with
  | (none, prog') => .ok (none, { c with current_progress := prog' })
  | (some result, prog') =>
    let c1 : StreamProgressCollector := { c with current_progress := prog' }
    match result.progressDict with
    | some d =>
      match DownloadProgress.fromKwargs {} d with
      | .error e => .error e
      | .ok dp =>
        let c2 : StreamProgressCollector :=
          { c1 with
            current_progress := dp,
            updates_since_last_emit := c1.updates_since_last_emit + 1 }
        let change := ((dp.percent : Int) - (c2.last_percent : Int)).natAbs
        if 5 ≤ change || 2 ≤ c2.updates_since_last_emit then
          .ok (some result,
            { c2 with last_percent := dp.percent, updates_since_last_emit := 0 })
        else if result.destination.isSome || result.done || result.error.isSome then
          .ok (some result, c2)
        else .ok (none, c2)
    | none =>
      if result.destination.isSome || result.done || result.error.isSome then
        .ok (some result, c1)
      else .ok (none, c1)

/-- **C1**: for every URL containing a `list=RD…` parameter, normalisation
recovers the seed from an 11-character `v=` match if present, else from the
`RD` suffix when it is exactly 11 characters, else leaves the URL unchanged;
`RDMM/RDAM/RDCLAK` list ids are preserved as-is; a recovered seed yields
`https://www.youtube.com/watch?v=<seed>&list=RD<seed>&start_radio=1`, and in
particular the spec's concrete example holds. -/
theorem C1_normalize_playlist_url_spec :
    (∀ url, radioSearch url = none → normalize_playlist_url url = url) ∧
    (∀ url listId sfx, radioSearch url = some (listId, sfx) →
      isSpecialRadio listId = true → normalize_playlist_url url = url) ∧
    (∀ url listId sfx vid, radioSearch url = some (listId, sfx) →
      isSpecialRadio listId = false → vSearch url = some vid →
      normalize_playlist_url url = canonicalRadioUrl vid) ∧
    (∀ url listId sfx, radioSearch url = some (listId, sfx) →
      isSpecialRadio listId = false → vSearch url = none → sfx.length = 11 →
      normalize_playlist_url url = canonicalRadioUrl sfx) ∧
    (∀ url listId sfx, radioSearch url = some (listId, sfx) →
      isSpecialRadio listId = false → vSearch url = none → sfx.length ≠ 11 →
      normalize_playlist_url url = url) ∧
    normalize_playlist_url "https://www.youtube.com/playlist?list=RDEgBJmlPo8Xw".toList =
      "https://www.youtube.com/watch?v=EgBJmlPo8Xw&list=RDEgBJmlPo8Xw&start_radio=1".toList := by
  refine ⟨?_, ?_, ?_, ?_, ?_, by decide⟩
  · intro url h; simp [normalize_playlist_url, h]
  · intro url listId sfx h hs; simp [normalize_playlist_url, h, hs]
  · intro url listId sfx vid h hs hv; simp [normalize_playlist_url, h, hs, hv]
  · intro url listId sfx h hs hv hl; simp [normalize_playlist_url, h, hs, hv, hl]
  · intro url listId sfx h hs hv hl; simp [normalize_playlist_url, h, hs, hv, hl]

lemma canonical_infix_facts (vid : List Char) :
    ("start_radio=1".toList <:+: canonicalRadioUrl vid) ∧
    ('v' :: '=' :: vid <:+: canonicalRadioUrl vid) ∧
    ("list=RD".toList ++ vid <:+: canonicalRadioUrl vid) := by
  refine ⟨⟨"https://www.youtube.com/watch?v=".toList ++ vid ++ "&list=RD".toList ++ vid ++ ['&'],
      [], ?_⟩,
    ⟨"https://www.youtube.com/watch?".toList,
      "&list=RD".toList ++ vid ++ "&start_radio=1".toList, ?_⟩,
    ⟨"https://www.youtube.com/watch?v=".toList ++ vid ++ ['&'],
      "&start_radio=1".toList, ?_⟩⟩
  · simp [canonicalRadioUrl, List.append_assoc, ampStartRadio_lit]
  · simp [canonicalRadioUrl, List.append_assoc, watchV_lit]
  · simp [canonicalRadioUrl, List.append_assoc, ampListRD_lit]

/-- **C2**: playlist-URL normalisation is idempotent, and for every Radio-Mix
URL with a recoverable seed the normalised URL is the canonical form, which
contains `start_radio=1` and carries the same seed in its `v=` and `list=RD`
parameters. -/
theorem C2_normalize_idempotent_and_radio_form :
    (∀ u, normalize_playlist_url (normalize_playlist_url u) = normalize_playlist_url u) ∧
    (∀ u listId sfx vid, radioSearch u = some (listId, sfx) →
      isSpecialRadio listId = false →
      (vSearch u = some vid ∨ (vSearch u = none ∧ sfx = vid ∧ vid.length = 11)) →
      normalize_playlist_url u = canonicalRadioUrl vid ∧
      ("start_radio=1".toList <:+: normalize_playlist_url u) ∧
      ('v' :: '=' :: vid <:+: normalize_playlist_url u) ∧
      ("list=RD".toList ++ vid <:+: normalize_playlist_url u)) := by
  constructor
  · intro u
    cases hr : radioSearch u with
    | none =>
      have hu : normalize_playlist_url u = u := by simp [normalize_playlist_url, hr]
      rw [hu]; exact hu
    | some p =>
      obtain ⟨listId, sfx⟩ := p
      obtain ⟨hlid, hsne, hsall⟩ := radioSearch_spec hr
      by_cases hs : isSpecialRadio listId = true
      · have hu : normalize_playlist_url u = u := by simp [normalize_playlist_url, hr, hs]
        rw [hu]; exact hu
      · have hs' : isSpecialRadio listId = false := Bool.eq_false_iff.mpr hs
        cases hv : vSearch u with
        | some vid =>
          have hu : normalize_playlist_url u = canonicalRadioUrl vid := by
            simp [normalize_playlist_url, hr, hs', hv]
          obtain ⟨hvl, hva⟩ := vSearch_spec hv
          rw [hu]; exact normalize_canonical_fix vid hva hvl
        | none =>
          by_cases hl : sfx.length = 11
          · have hu : normalize_playlist_url u = canonicalRadioUrl sfx := by
              simp [normalize_playlist_url, hr, hs', hv, hl]
            rw [hu]; exact normalize_canonical_fix sfx hsall hl
          · have hu : normalize_playlist_url u = u := by
              simp [normalize_playlist_url, hr, hs', hv, hl]
            rw [hu]; exact hu
  · intro u listId sfx vid hr hs hseed
    have hnorm : normalize_playlist_url u = canonicalRadioUrl vid := by
      rcases hseed with hv | ⟨hv, hsfx, hl⟩
      · simp [normalize_playlist_url, hr, hs, hv]
      · subst hsfx; simp [normalize_playlist_url, hr, hs, hv, hl]
    have hfacts := canonical_infix_facts vid
    rw [hnorm]
    exact ⟨rfl, hfacts.1, hfacts.2.1, hfacts.2.2⟩

/-- Witness for C2: at the spec's concrete Radio-Mix URL, the normalised URL
contains `start_radio=1`. -/
theorem C2_normalize_idempotent_and_radio_form_witness :
    "start_radio=1".toList <:+:
      normalize_playlist_url "https://www.youtube.com/playlist?list=RDEgBJmlPo8Xw".toList :=
  (C2_normalize_idempotent_and_radio_form.2
    "https://www.youtube.com/playlist?list=RDEgBJmlPo8Xw".toList
    "RDEgBJmlPo8Xw".toList "EgBJmlPo8Xw".toList "EgBJmlPo8Xw".toList
    (by decide) (by decide) (Or.inr ⟨by decide, rfl, by decide⟩)).2.1

/-- Witness for C1: the seed-from-suffix branch applied to the spec's
concrete Radio-Mix URL. -/
theorem C1_normalize_playlist_url_spec_witness :
    normalize_playlist_url "https://www.youtube.com/playlist?list=RDEgBJmlPo8Xw".toList =
      canonicalRadioUrl "EgBJmlPo8Xw".toList :=
  C1_normalize_playlist_url_spec.2.2.2.1
    "https://www.youtube.com/playlist?list=RDEgBJmlPo8Xw".toList
    "RDEgBJmlPo8Xw".toList "EgBJmlPo8Xw".toList
    (by decide) (by decide) (by decide) (by decide)

/-- The percent a download-progress line reports verbatim (the value the
code assigns in the two `PATTERN_PROGRESS`/`PATTERN_DOWNLOADING` branches). -/
def reportedPercent (line : List Char) : Option Nat :=
  match progressFullSearch line with
  | some (p, _, _) => some p
  | none => progressSimpleSearch line

/-- Percents carried by the progress results `parse_line` produces over a
sequence of lines, threading the mutable state. -/
def parsedPercentSeqFrom (cur : DownloadProgress) : List (List Char) → List Nat
  | [] => []
  | l :: ls =>
    match parse_line l cur with
    | (some r, p') =>
      if r.progressDict.isSome then p'.percent :: parsedPercentSeqFrom p' ls
      else parsedPercentSeqFrom p' ls
    | (none, p') => parsedPercentSeqFrom p' ls

/-- Percents of the progress frames parsed from a fresh state. -/
def parsedPercentSeq : List (List Char) → List Nat :=
  parsedPercentSeqFrom {}

/-- **C4**: the collector's throttling is unreachable: reconstructing the
progress dataclass from `to_dict` output raises `TypeError` (`to_dict` uses
keys `eta`/`downloaded`/`total`, the dataclass fields are `eta_seconds`/
`downloaded_bytes`/`total_bytes`), so every progress update makes
`process_line` raise instead of emitting; destination and error events do
pass through. -/
theorem C4_process_line_raises_on_progress :
    StreamProgressCollector.process_line {}
      ("[download]  42.0% at 1.2MiB/s ETA 00:10".toList) =
      .error ("unexpected keyword argument eta".toList) ∧
    StreamProgressCollector.process_line {}
      ("[ExtractAudio] Destination: /tmp/song.mp3".toList) =
      .ok (some { destination := some ("/tmp/song.mp3".toList) }, {}) ∧
    StreamProgressCollector.process_line {} ("ERROR: Video unavailable".toList) =
      .ok (some { error := some ("ERROR: Video unavailable".toList) }, {}) := by
  refine ⟨by decide, by decide, by decide⟩

/-- **C5** counterexample: the percents parsed from one task's lines can
decrease — a `Converting` transition after a `100.0%` download line yields
`min 95 (100 + 2) = 95 < 100`. -/
theorem C5_percent_decrease_counterexample :
    parsedPercentSeq ["[download] 100.0%".toList,
      "[ExtractAudio] Converting audio to mp3".toList] = [100, 95] ∧
    ¬ List.Chain' (· ≤ ·) (parsedPercentSeq ["[download] 100.0%".toList,
      "[ExtractAudio] Converting audio to mp3".toList]) := by
  have h1 : parsedPercentSeq ["[download] 100.0%".toList,
      "[ExtractAudio] Converting audio to mp3".toList] = [100, 95] := by decide
  refine ⟨h1, ?_⟩
  rw [h1]
  intro hch
  exact absurd (List.chain'_cons.mp hch).1 (by omega)

/-- **C5** amended: as long as the current percent is at most 95, each newly
parsed progress percent either does not decrease (converting / completion
transitions) or is exactly the percent the download line reports, which the
code copies without enforcing monotonicity. -/
theorem C5_percent_step_amended :
    ∀ (cur : DownloadProgress) (line : List Char) (res : PyResult)
      (prog' : DownloadProgress),
      cur.percent ≤ 95 →
      parse_line line cur = (some res, prog') →
      res.progressDict.isSome = true →
      cur.percent ≤ prog'.percent ∨ reportedPercent line = some prog'.percent := by
  intro cur line res prog' hcur h hdict
  by_cases hemp : line.isEmpty = true
  · simp [parse_line, hemp] at h
  · cases hf : progressFullSearch line with
    | some t =>
      obtain ⟨p, speed, eta⟩ := t
      simp only [parse_line, hemp, hf, Bool.false_eq_true, if_false,
        Option.some.injEq, Prod.mk.injEq] at h
      right
      rw [reportedPercent, hf, ← h.2]
    | none =>
      cases hs : progressSimpleSearch line with
      | some p =>
        simp only [parse_line, hemp, hf, hs, Bool.false_eq_true, if_false,
          Option.some.injEq, Prod.mk.injEq] at h
        right
        rw [reportedPercent, hf, hs, ← h.2]
      | none =>
        by_cases hc : convertingSearch line = true
        · simp only [parse_line, hemp, hf, hs, hc, Bool.false_eq_true, if_false,
            if_true, Option.some.injEq, Prod.mk.injEq] at h
          left
          rw [← h.2]
          exact le_min (by omega) (by omega)
        · cases hd : destinationSearch line with
          | some p =>
            simp only [parse_line, hemp, hf, hs,
              Bool.eq_false_iff.mpr hc, hd, Bool.false_eq_true, if_false,
              Option.some.injEq, Prod.mk.injEq] at h
            rw [← h.1] at hdict
            simp at hdict
          | none =>
            cases ha : alreadyDownloadedSearch line with
            | some p =>
              simp only [parse_line, hemp, hf, hs,
                Bool.eq_false_iff.mpr hc, hd, ha, Bool.false_eq_true, if_false,
                Option.some.injEq, Prod.mk.injEq] at h
              rw [← h.1] at hdict
              simp at hdict
            | none =>
              by_cases hae : containsSub ("already exists".toList) line = true
              · simp only [parse_line, hemp, hf, hs,
                  Bool.eq_false_iff.mpr hc, hd, ha, hae, Bool.false_eq_true,
                  if_false, if_true, Option.some.injEq, Prod.mk.injEq] at h
                rw [← h.1] at hdict
                simp at hdict
              · by_cases hyt : (containsSub ("[youtube]".toList) line &&
                    !containsSub ("Downloading".toList) line &&
                    !(pyStrip line).isEmpty) = true
                · simp only [parse_line, hemp, hf, hs,
                    Bool.eq_false_iff.mpr hc, hd, ha,
                    Bool.eq_false_iff.mpr hae, hyt, Bool.false_eq_true,
                    if_false, if_true, Option.some.injEq, Prod.mk.injEq] at h
                  exact absurd h.1 (by simp)
                · by_cases herr : (containsSub ("ERROR".toList) (asciiUpper line) ||
                      containsSub ("error".toList) line) = true
                  · simp only [parse_line, hemp, hf, hs,
                      Bool.eq_false_iff.mpr hc, hd, ha,
                      Bool.eq_false_iff.mpr hae, Bool.eq_false_iff.mpr hyt,
                      herr, Bool.false_eq_true, if_false, if_true,
                      Option.some.injEq, Prod.mk.injEq] at h
                    rw [← h.1] at hdict
                    simp at hdict
                  · by_cases h100 : (containsSub ("[download]".toList) line &&
                        containsSub ("100%".toList) line) = true
                    · simp only [parse_line, hemp, hf, hs,
                        Bool.eq_false_iff.mpr hc, hd, ha,
                        Bool.eq_false_iff.mpr hae, Bool.eq_false_iff.mpr hyt,
                        Bool.eq_false_iff.mpr herr, h100, Bool.false_eq_true,
                        if_false, if_true, Option.some.injEq, Prod.mk.injEq] at h
                      left
                      rw [← h.2]
                      show cur.percent ≤ 100
                      omega
                    · simp only [parse_line, hemp, hf, hs,
                        Bool.eq_false_iff.mpr hc, hd, ha,
                        Bool.eq_false_iff.mpr hae, Bool.eq_false_iff.mpr hyt,
                        Bool.eq_false_iff.mpr herr, Bool.eq_false_iff.mpr h100,
                        Bool.false_eq_true, if_false, Option.some.injEq, Prod.mk.injEq] at h
                      exact absurd h.1 (by simp)

/-- Witness for the amended C5: a fresh state and the line
`[download] 50.0%`. -/
theorem C5_percent_step_amended_witness :
    ({} : DownloadProgress).percent ≤
        ({ percent := 50, status := "downloading".toList } : DownloadProgress).percent ∨
      reportedPercent ("[download] 50.0%".toList) =
        some ({ percent := 50, status := "downloading".toList } : DownloadProgress).percent :=
  C5_percent_step_amended {} ("[download] 50.0%".toList)
    { progressDict :=
        some ({ percent := 50, status := "downloading".toList } : DownloadProgress).to_dict }
    { percent := 50, status := "downloading".toList }
    (by decide) (by decide) (by decide)

/-!
## Archive validation (`worker/playlist_dl.py`, `_validate_archive`)

The database is a pair of tables; `SELECT … LIKE '%vid%'` with `fetchone`
is the first row (table order) whose `youtube_url` contains the video id
(SQLite `LIKE` is ASCII case-insensitive); `physical_path = []` models a
NULL/empty (falsy) column.
-/

/-- Python `str.split()` (split on whitespace runs, dropping empties),
accumulator form. -/
def pySplitWsAux : List Char → List Char → List (List Char)
  | [], acc => if acc.isEmpty then [] else [acc.reverse]
  | c :: cs, acc =>
    if isSpace c then
      if acc.isEmpty then pySplitWsAux cs [] else acc.reverse :: pySplitWsAux cs []
    else pySplitWsAux cs (c :: acc)

/-- Python `str.split()`. -/
def pySplitWs (l : List Char) : List (List Char) :=
  pySplitWsAux l []

/-- SQLite `hay LIKE '%needle%'` (ASCII case-insensitive). -/
def likeContains (needle hay : List Char) : Bool :=
  containsSub (asciiLower needle) (asciiLower hay)

/-- A `file_storage` row (the columns `_validate_archive` touches). -/
structure FileStorageRow where
  file_hash_sha1 : List Char
  physical_path : List Char
  youtube_url : List Char
  title : List Char
deriving DecidableEq

/-- A `user_symlinks` row (the columns `_validate_archive` touches). -/
structure UserSymlinkRow where
  file_hash_sha1 : List Char
  symlink_path : List Char
deriving DecidableEq

/-- The two tables `_validate_archive` reads and mutates. -/
structure ArchiveDb where
  file_storage : List FileStorageRow
  user_symlinks : List UserSymlinkRow
deriving DecidableEq

/-- `SELECT physical_path FROM file_storage WHERE youtube_url LIKE ?` with
`fetchone`. -/
def dbLookup (db : ArchiveDb) (vid : List Char) : Option FileStorageRow :=
  db.file_storage.find? fun row => likeContains vid row.youtube_url

/-- The two `DELETE`s run for a stale entry: `user_symlinks` rows whose hash
belongs to a matching `file_storage` row, then the matching `file_storage`
rows themselves. -/
def dbDeleteByVid (db : ArchiveDb) (vid : List Char) : ArchiveDb :=
  let hashes := (db.file_storage.filter fun row =>
    likeContains vid row.youtube_url).map (·.file_hash_sha1)
  { file_storage := db.file_storage.filter fun row => !likeContains vid row.youtube_url,
    user_symlinks := db.user_symlinks.filter fun s => !hashes.contains s.file_hash_sha1 }

/-- One loop iteration of `_validate_archive` over an archive line:
returns the updated database and whether the line is kept. -/
def validateStep (fileExists : List Char → Bool) (db : ArchiveDb) (line : List Char) :
    ArchiveDb × Bool :=
  let parts := pySplitWs (pyStrip line)
  if parts.length < 2 then (db, true)
  else
    let vid := parts.getD 1 []
    match dbLookup db vid with
    | some row =>
      if !row.physical_path.isEmpty && fileExists row.physical_path then (db, true)
      else if !row.physical_path.isEmpty then (dbDeleteByVid db vid, false)
      else (db, true)
    | none => (db, true)

/-- `_validate_archive` over the archive's lines: final database, kept
lines (`valid`), removed count. -/
def validate_archive (fileExists : List Char → Bool) :
    ArchiveDb → List (List Char) → ArchiveDb × List (List Char) × Nat
  | db, [] => (db, [], 0)
  | db, line :: rest =>
    match validateStep fileExists db line with
    | (db', keep) =>
      match validate_archive fileExists db' rest with
      | (db'', kept, removed) =>
        (db'', if keep then line :: kept else kept,
          if keep then removed else removed + 1)

/-- **C3**: each archive line is settled by a three-way case split on the
database lookup of its video id: a matching pool row whose physical path is
missing on disk drops the line and purges the matching `file_storage` rows
and their `user_symlinks` rows; a matching row whose file exists keeps the
line; no match keeps the line. -/
theorem C3_validate_archive_cases :
    (∀ (fe : List Char → Bool) (db : ArchiveDb) (line : List Char) (row : FileStorageRow),
      2 ≤ (pySplitWs (pyStrip line)).length →
      dbLookup db ((pySplitWs (pyStrip line))[1]?.getD []) = some row →
      row.physical_path ≠ [] → fe row.physical_path = true →
      validateStep fe db line = (db, true)) ∧
    (∀ (fe : List Char → Bool) (db : ArchiveDb) (line : List Char) (row : FileStorageRow),
      2 ≤ (pySplitWs (pyStrip line)).length →
      dbLookup db ((pySplitWs (pyStrip line))[1]?.getD []) = some row →
      row.physical_path ≠ [] → fe row.physical_path = false →
      validateStep fe db line =
        (dbDeleteByVid db ((pySplitWs (pyStrip line))[1]?.getD []), false)) ∧
    (∀ (fe : List Char → Bool) (db : ArchiveDb) (line : List Char),
      dbLookup db ((pySplitWs (pyStrip line))[1]?.getD []) = none →
      validateStep fe db line = (db, true)) ∧
    (∀ (db : ArchiveDb) (vid : List Char) (row : FileStorageRow),
      row ∈ (dbDeleteByVid db vid).file_storage ↔
        row ∈ db.file_storage ∧ likeContains vid row.youtube_url = false) ∧
    (∀ (db : ArchiveDb) (vid : List Char) (s : UserSymlinkRow),
      s ∈ (dbDeleteByVid db vid).user_symlinks ↔
        s ∈ db.user_symlinks ∧
          ((db.file_storage.filter fun row => likeContains vid row.youtube_url).map
            (·.file_hash_sha1)).contains s.file_hash_sha1 = false) := by
  refine ⟨?_, ?_, ?_, ?_, ?_⟩
  · intro fe db line row hlen hlook hpath hfe
    have hnl : ¬ ((pySplitWs (pyStrip line)).length < 2) := by omega
    simp [validateStep, List.getD, hnl, hlook, hpath, hfe]
  · intro fe db line row hlen hlook hpath hfe
    have hnl : ¬ ((pySplitWs (pyStrip line)).length < 2) := by omega
    simp [validateStep, List.getD, hnl, hlook, hpath, hfe]
  · intro fe db line hlook
    by_cases hlen : (pySplitWs (pyStrip line)).length < 2
    · simp [validateStep, hlen]
    · simp [validateStep, List.getD, hlen, hlook]
  · intro db vid row
    simp [dbDeleteByVid, List.mem_filter]
  · intro db vid s
    simp [dbDeleteByVid, List.mem_filter]

/-- Concrete stale row for the C3 witness. -/
def c3Row : FileStorageRow :=
  ⟨"abc".toList, "/pool/x.mp3".toList,
    "https://www.youtube.com/watch?v=AAAAAAAAAAA".toList, "t".toList⟩

/-- Concrete database for the C3 witness. -/
def c3Db : ArchiveDb :=
  ⟨[c3Row], [⟨"abc".toList, "/u/1/x.mp3".toList⟩]⟩

/-- Witness for C3: one stale row (file gone) drops the line and purges the
matching rows. -/
theorem C3_validate_archive_cases_witness :
    validateStep (fun _ => false) c3Db ("youtube AAAAAAAAAAA".toList) =
      (⟨[], []⟩, false) := by
  have h := C3_validate_archive_cases.2.1 (fun _ => false) c3Db
    ("youtube AAAAAAAAAAA".toList) c3Row
    (by decide) (by decide) (by decide) (by decide)
  rw [h]
  decide

/-!
## Extractor invocations (`handle_youtube_download`, `_get_playlist_info`,
`_download_playlist_tracks`, `get_playlist_preview`)

Each builder produces the argv list.  `cookieArgs` is the result of
`get_yt_dlp_cookie_args()` (empty when no cookie file is available),
`nodeBin` the result of `find_node_binary()`, `pyExe` is `sys.executable`.
-/

/-- `'--js-runtimes', f'node:{node_bin}', '--remote-components', 'ejs:github'`
when a Node binary was found. -/
def nodeArgs (nodeBin : Option (List Char)) : List (List Char) :=
  match nodeBin with
  | some nb => ["--js-runtimes".toList, "node:".toList ++ nb,
      "--remote-components".toList, "ejs:github".toList]
  | none => []

/-- `'web' if cookie_args else 'android,web'`. -/
def playerClients (cookieArgs : List (List Char)) : List Char :=
  if cookieArgs.isEmpty then "android,web".toList else "web".toList

/-- The argv built by `_get_playlist_info` (playlist metadata probe). -/
def playlistInfoCommand (pyExe url : List Char) (cookieArgs : List (List Char))
    (nodeBin : Option (List Char)) : List (List Char) :=
  [pyExe, "-m".toList, "yt_dlp".toList, url,
    "--yes-playlist".toList, "--dump-single-json".toList,
    "--flat-playlist".toList, "--no-cache-dir".toList] ++
  cookieArgs ++
  ["--extractor-args".toList,
    "youtube:player_client=".toList ++ playerClients cookieArgs] ++
  nodeArgs nodeBin

/-- POSIX `os.path.join` for the path shapes this code produces. -/
def pathJoin (a b : List Char) : List Char :=
  a ++ '/' :: b

/-- The argv built by `_download_playlist_tracks` (playlist batch download). -/
def playlistTracksCommand (pyExe url outputDir : List Char)
    (extract_audio : Bool) (audio_format : List Char)
    (formatParam : Option (List Char)) (playlist_end : Option Nat)
    (archive : Option (List Char)) (cookieArgs : List (List Char))
    (nodeBin : Option (List Char)) : List (List Char) :=
  [pyExe, "-m".toList, "yt_dlp".toList, url,
    "--yes-playlist".toList, "--no-cache-dir".toList, "--ignore-errors".toList,
    "--socket-timeout".toList, "10".toList,
    "--progress-template".toList,
    "[download] %(progress._percent_str)s at %(progress._speed_str)s".toList] ++
  (match playlist_end with
   | some n => if n ≠ 0 then ["--playlist-end".toList, (toString n).toList] else []
   | none => []) ++
  ["-f".toList,
    (match formatParam with
     | some f => f
     | none =>
       if extract_audio then
         "bestaudio[ext=m4a]/bestaudio[ext=webm]/bestaudio/best".toList
       else
         ("bestvideo[height<=1080][ext=mp4]+bestaudio[ext=m4a]" ++
          "/bestvideo[height<=1080]+bestaudio" ++
          "/best[height<=1080]/best").toList)] ++
  (if extract_audio then
    ["-x".toList, "--audio-format".toList, audio_format,
      "--audio-quality".toList, "0".toList]
   else []) ++
  ["-o".toList,
    (if containsSub ("list=RD".toList) url then
      pathJoin outputDir ("%(title)s.%(ext)s".toList)
     else
      pathJoin outputDir ("%(playlist_index)03d - %(title)s.%(ext)s".toList))] ++
  cookieArgs ++
  ["--extractor-args".toList,
    "youtube:player_client=".toList ++ playerClients cookieArgs] ++
  (match archive with
   | some p => ["--download-archive".toList, p]
   | none => []) ++
  nodeArgs nodeBin ++
  ["--print".toList, "after_move:YTDLP_ID\t%(id)s\t%(filepath)s".toList]

/-- The argv built by `get_playlist_preview`. -/
def previewCommand (pyExe url : List Char) (preview_count : Nat)
    (cookieArgs : List (List Char)) (nodeBin : Option (List Char)) :
    List (List Char) :=
  [pyExe, "-m".toList, "yt_dlp".toList,
    "--flat-playlist".toList,
    "--print".toList, "%(playlist_title)s|%(playlist_count)s".toList,
    "--print".toList, "%(playlist_index)s\t%(title)s".toList,
    "--playlist-end".toList, (toString preview_count).toList,
    "--no-cache-dir".toList, url] ++
  cookieArgs ++
  ["--extractor-args".toList,
    "youtube:player_client=".toList ++ playerClients cookieArgs] ++
  nodeArgs nodeBin

/-- The argv built by `handle_youtube_download` (single video): NOTE the
extractor-args player-client selection is hard-coded `android,web`,
independent of `cookieArgs`. -/
def youtubeDlCommand (pyExe url outputDir : List Char)
    (extract_audio : Bool) (audio_format audio_quality : List Char)
    (best_audio_limit : Option Nat) (formatParam : Option (List Char))
    (cookieArgs : List (List Char)) : List (List Char) :=
  [pyExe, "-m".toList, "yt_dlp".toList, url] ++
  (if extract_audio then
    (match best_audio_limit with
     | some n =>
       if n ≠ 0 then
         ["-f".toList,
           "bestaudio[filesize<".toList ++ (toString n).toList ++ "M]/bestaudio".toList]
       else ["-f".toList, "bestaudio".toList]
     | none => ["-f".toList, "bestaudio".toList]) ++
    ["-x".toList, "--audio-format".toList, audio_format] ++
    (if audio_quality.isEmpty then [] else ["--audio-quality".toList, audio_quality])
   else
    (let format_str := match formatParam with
      | some f => f
      | none => "best[ext=mp4]/best".toList
     ["-f".toList, format_str] ++
     (if containsSub ("+".toList) format_str then
       ["--merge-output-format".toList, "mp4".toList]
      else []))) ++
  ["-o".toList, pathJoin outputDir ("%(title)s.%(ext)s".toList)] ++
  cookieArgs ++
  ["--no-cache-dir".toList, "--no-check-certificate".toList,
    "--extractor-args".toList, "youtube:player_client=android,web".toList,
    "--progress-template".toList,
    ("[download] %(progress._percent_str)s at %(progress._speed_str)s" ++
      " ETA %(progress._eta_str)s").toList]

/-- **C8** counterexample: with cookies present
(`cookieArgs = ['--cookies', '/data/cookies.txt']`), the single-video
invocation still selects `android,web`, not the authenticated `web` client. -/
theorem C8_cookie_toggle_counterexample :
    "youtube:player_client=android,web".toList ∈
      youtubeDlCommand ("python3".toList)
        ("https://youtu.be/dQw4w9WgXcQ".toList) ("/tmp/out".toList)
        true ("mp3".toList) ("192".toList) (some 15) none
        ["--cookies".toList, "/data/cookies.txt".toList] ∧
    "youtube:player_client=web".toList ∉
      youtubeDlCommand ("python3".toList)
        ("https://youtu.be/dQw4w9WgXcQ".toList) ("/tmp/out".toList)
        true ("mp3".toList) ("192".toList) (some 15) none
        ["--cookies".toList, "/data/cookies.txt".toList] := by
  exact ⟨by decide, by decide⟩

/-- **C8** amended: the playlist metadata probe, the playlist batch
download and the playlist preview toggle the player client on cookie
presence (`web` with cookies, `android,web` without); the single-video
invocation always passes `android,web`. -/
theorem C8_player_client_selection :
    ∀ (pyExe url outputDir : List Char) (cookieArgs : List (List Char))
      (nodeBin : Option (List Char)) (extract_audio : Bool)
      (audio_format audio_quality : List Char)
      (formatParam : Option (List Char)) (playlist_end best_audio_limit : Option Nat)
      (archive : Option (List Char)) (preview_count : Nat),
      (cookieArgs ≠ [] →
        "youtube:player_client=web".toList ∈
          playlistInfoCommand pyExe url cookieArgs nodeBin ∧
        "youtube:player_client=web".toList ∈
          playlistTracksCommand pyExe url outputDir extract_audio audio_format
            formatParam playlist_end archive cookieArgs nodeBin ∧
        "youtube:player_client=web".toList ∈
          previewCommand pyExe url preview_count cookieArgs nodeBin) ∧
      (cookieArgs = [] →
        "youtube:player_client=android,web".toList ∈
          playlistInfoCommand pyExe url cookieArgs nodeBin ∧
        "youtube:player_client=android,web".toList ∈
          playlistTracksCommand pyExe url outputDir extract_audio audio_format
            formatParam playlist_end archive cookieArgs nodeBin ∧
        "youtube:player_client=android,web".toList ∈
          previewCommand pyExe url preview_count cookieArgs nodeBin) ∧
      "youtube:player_client=android,web".toList ∈
        youtubeDlCommand pyExe url outputDir extract_audio audio_format
          audio_quality best_audio_limit formatParam cookieArgs := by
  intro pyExe url outputDir cookieArgs nodeBin extract_audio audio_format
    audio_quality formatParam playlist_end best_audio_limit archive preview_count
  refine ⟨?_, ?_, ?_⟩
  · intro hc
    have hpc : playerClients cookieArgs = "web".toList := by
      simp [playerClients, List.isEmpty_iff, hc]
    have hfull : "youtube:player_client=".toList ++ playerClients cookieArgs =
        "youtube:player_client=web".toList := by
      rw [hpc]; decide
    refine ⟨?_, ?_, ?_⟩
    · simp only [playlistInfoCommand, hfull]
      simp
    · simp only [playlistTracksCommand, hfull]
      simp
    · simp only [previewCommand, hfull]
      simp
  · intro hc
    subst hc
    have hfull : "youtube:player_client=".toList ++ playerClients [] =
        "youtube:player_client=android,web".toList := by decide
    refine ⟨?_, ?_, ?_⟩
    · simp only [playlistInfoCommand, hfull]
      simp
    · simp only [playlistTracksCommand, hfull]
      simp
    · simp only [previewCommand, hfull]
      simp
  · simp [youtubeDlCommand]

/-- Witness for the amended C8: cookies present selects `web` for the
playlist probe. -/
theorem C8_player_client_selection_witness :
    "youtube:player_client=web".toList ∈
      playlistInfoCommand ("python3".toList)
        ("https://www.youtube.com/playlist?list=PLx".toList)
        ["--cookies".toList, "/data/cookies.txt".toList] none :=
  ((C8_player_client_selection ("python3".toList)
    ("https://www.youtube.com/playlist?list=PLx".toList) ("/tmp".toList)
    ["--cookies".toList, "/data/cookies.txt".toList] none false
    ("mp3".toList) ("192".toList) none none none none 5).1 (by decide)).1

/-!
## IPC loop scheduling (`worker/ipc.py`, `IPCHandler.run`)

`run` is `for line in sys.stdin: … await self.process_request(request)`:
the `await` drives the handler coroutine to completion — resuming it through
each of its suspension points — before the `for` loop reads the next line;
neither `run` nor `process_request` spawns a task.  The observable schedule
is therefore the sequential concatenation of per-request blocks.
-/

/-- One observable step of the loop or of a handler coroutine. -/
inductive LoopStep where
  | readLine (i : Nat)
  | handlerStart (i : Nat)
  | handlerSuspend (i : Nat)
  | handlerFinish (i : Nat)
deriving DecidableEq

/-- The steps of request `i`'s processing: the stdin read, then the handler
run to completion through its `suspends i` suspension points. -/
def handlerBlock (suspends : Nat → Nat) (i : Nat) : List LoopStep :=
  .readLine i :: .handlerStart i ::
    (List.replicate (suspends i) (.handlerSuspend i) ++ [.handlerFinish i])

/-- The schedule of `IPCHandler.run` over `n` stdin requests. -/
def ipcRunTrace (n : Nat) (suspends : Nat → Nat) : List LoopStep :=
  (List.range n).flatMap (handlerBlock suspends)

/-- **C7** counterexample: with two requests whose first handler suspends
once, the loop finishes handler 0 strictly before reading line 1 — the
next stdin read does not proceed before the in-flight handler finishes. -/
theorem C7_sequential_read_counterexample :
    (ipcRunTrace 2 fun _ => 1) =
      [.readLine 0, .handlerStart 0, .handlerSuspend 0, .handlerFinish 0,
       .readLine 1, .handlerStart 1, .handlerSuspend 1, .handlerFinish 1] ∧
    (ipcRunTrace 2 fun _ => 1).indexOf (LoopStep.handlerFinish 0) <
      (ipcRunTrace 2 fun _ => 1).indexOf (LoopStep.readLine 1) := by
  exact ⟨by decide, by decide⟩

/-- **C7** amended: the loop awaits each handler to completion before the
next stdin read — every request's finish precedes the following request's
read in the schedule. -/
theorem C7_await_before_next_read :
    ∀ (n : Nat) (suspends : Nat → Nat) (i : Nat), i + 1 < n →
      List.Sublist [LoopStep.handlerFinish i, LoopStep.readLine (i + 1)]
        (ipcRunTrace n suspends) := by
  intro n s i hi
  have hdecomp : List.range n =
      List.range i ++ [i, i + 1] ++ List.drop (i + 2) (List.range n) := by
    have h1 : List.take (i + 2) (List.range n) = List.range (i + 2) := by
      rw [List.take_range]
      congr 1
      omega
    calc List.range n
        = List.take (i + 2) (List.range n) ++ List.drop (i + 2) (List.range n) :=
          (List.take_append_drop _ _).symm
      _ = List.range (i + 2) ++ List.drop (i + 2) (List.range n) := by rw [h1]
      _ = List.range i ++ [i, i + 1] ++ List.drop (i + 2) (List.range n) := by
          rw [List.range_succ, List.range_succ]
          simp
  have h1 : List.Sublist [LoopStep.handlerFinish i] (handlerBlock s i) := by
    apply List.singleton_sublist.mpr
    simp [handlerBlock]
  have h2 : List.Sublist [LoopStep.readLine (i + 1)] (handlerBlock s (i + 1)) := by
    apply List.singleton_sublist.mpr
    simp [handlerBlock]
  have h12 : List.Sublist [LoopStep.handlerFinish i, LoopStep.readLine (i + 1)]
      (handlerBlock s i ++ handlerBlock s (i + 1)) := h1.append h2
  rw [ipcRunTrace, hdecomp, List.flatMap_append, List.flatMap_append]
  have hmid : ([i, i + 1].flatMap (handlerBlock s)) =
      handlerBlock s i ++ handlerBlock s (i + 1) := by
    simp
  rw [hmid, List.append_assoc]
  exact h12.trans ((List.sublist_append_left _ _).trans (List.sublist_append_right _ _))

/-- Witness for the amended C7 at a concrete schedule. -/
theorem C7_await_before_next_read_witness :
    List.Sublist [LoopStep.handlerFinish 0, LoopStep.readLine 1]
      (ipcRunTrace 2 (fun _ => 0)) :=
  C7_await_before_next_read 2 (fun _ => 0) 0 (by decide)

/-!
## Terminal-event discipline (`youtube_dl.py` and `playlist_dl.py` handlers)

An environment record fixes every branch outcome of one request (child
lines, timeouts, exit code, filesystem answers, exception points); the
handler's IPC emissions are computed in exactly the order the code sends
them.  `progressEv` carries the clamped percent and status of one
`send_progress` call; `doneEv`/`errorEv` are the terminal frames.
-/

/-- One IPC frame emitted for a task. -/
inductive Event where
  | progressEv (percent : Nat) (status : List Char)
  | doneEv
  | errorEv (code : List Char)
deriving DecidableEq

/-- `done` and `error` are the terminal events. -/
def Event.isTerminal : Event → Bool
  | .doneEv => true
  | .errorEv _ => true
  | .progressEv _ _ => false

/-- Number of terminal events in a trace. -/
def terminalCount (evs : List Event) : Nat :=
  (evs.filter Event.isTerminal).length

/-- `data['k']` for an int entry of a progress dict (`to_dict` always
provides the key; 0 is an unreachable fallback). -/
def pyDictNat (d : List (List Char × PyVal)) (k : List Char) : Nat :=
  match d.lookup k with
  | some (.i n) => n
  | _ => 0

/-- `data['k']` for a string entry of a progress dict. -/
def pyDictStr (d : List (List Char × PyVal)) (k : List Char) : List Char :=
  match d.lookup k with
  | some (.s v) => v
  | _ => []

/-- Mutable state of `_execute_download.read_progress`. -/
structure ReadAcc where
  events : List Event := []
  destination : Option (List Char) := none
  has_error : Bool := false
  error_message : Option (List Char) := none
  stderr_lines : List (List Char) := []

/-- Actions taken for one non-`None` `process_line` result: a progress
frame, the destination, the error flags, and the `done` 100% frame, in the
code's order. -/
def readProgressResult (acc : ReadAcc) (result : PyResult) : ReadAcc :=
  let acc :=
    match result.progressDict with
    | some d =>
      { acc with events := acc.events ++
          [Event.progressEv (min 100 (pyDictNat d ("percent".toList)))
            (pyDictStr d ("status".toList))] }
    | none => acc
  let acc :=
    match result.destination with
    | some p => { acc with destination := some p }
    | none => acc
  let acc :=
    match result.error with
    | some m => { acc with has_error := true, error_message := some m }
    | none => acc
  if result.done then
    { acc with events := acc.events ++ [Event.progressEv 100 ("completed".toList)] }
  else acc

/-- The `read_progress` line loop: strip, skip empties, record the line,
feed the collector; the `TypeError` of C4 is caught by the generic
`except`, which ends the loop. -/
def execReadGo (c : StreamProgressCollector) (acc : ReadAcc) :
    List (List Char) → ReadAcc
  | [] => acc
  | raw :: rest =>
    let line := pyStrip raw
    if line.isEmpty then execReadGo c acc rest
    else
      let acc := { acc with stderr_lines := acc.stderr_lines ++ [line] }
      match c.process_line line with
      | .error _ => acc
      | .ok (none, c') => execReadGo c' acc rest
      | .ok (some result, c') => execReadGo c' (readProgressResult acc result) rest

/-- `read_progress` on the readable lines; a per-line read timeout
afterwards sets the `NETWORK_TIMEOUT` error flags (caught inside the
reader). -/
def read_progressRun (lines : List (List Char)) (innerTimesOut : Bool) : ReadAcc :=
  let acc := execReadGo {} {} lines
  if innerTimesOut then
    { acc with
      has_error := true,
      error_message := some ("Network timeout, retrying...".toList) }
  else acc

/-- ASCII apostrophe (U+0027). -/
def apos : Char := Char.ofNat 39

/-- The stderr phrase scan of `_execute_download` for a nonzero exit code;
`get_error('BOT_DETECTION')` has no definition so it falls back to
`UNKNOWN_ERROR`. -/
def classifyExitCode (stderr_lines : List (List Char)) : List Char :=
  let lo := asciiLower (List.intercalate [' '] stderr_lines)
  if containsSub ("sign in to confirm".toList) lo ||
      containsSub ("confirm you".toList ++ apos :: "re not a bot".toList) lo then
    "UNKNOWN_ERROR".toList
  else if containsSub ("private video".toList) lo ||
      containsSub ("video is private".toList) lo then "VIDEO_PRIVATE".toList
  else if containsSub ("video unavailable".toList) lo ||
      containsSub ("has been removed".toList) lo then "VIDEO_REMOVED".toList
  else if containsSub ("no suitable format".toList) lo then
    "NO_SUITABLE_FORMAT".toList
  else "UNKNOWN_ERROR".toList

/-- Branch outcomes of one `_execute_download` run. -/
structure ExecEnv where
  spawnRaises : Bool := false
  spawnErrCode : List Char := "UNKNOWN_ERROR".toList
  lines : List (List Char) := []
  innerTimesOut : Bool := false
  outerTimesOut : Bool := false
  outerPrefix : Nat := 0
  returncodeZero : Bool := true
  fileExistsFn : List Char → Bool := fun _ => false
  newestMedia : Option (List Char) := none

/-- The IPC frames `_execute_download` emits, in order, over every
execution path: spawn failure, overall timeout (the reader cancelled after
a prefix of its emissions), nonzero exit, found destination, fallback file,
missing file. -/
def execute_download_events (env : ExecEnv) : List Event :=
  if env.spawnRaises then [Event.errorEv env.spawnErrCode]
  else
    let r := read_progressRun env.lines env.innerTimesOut
    if env.outerTimesOut then
      r.events.take env.outerPrefix ++ [Event.errorEv ("NETWORK_TIMEOUT".toList)]
    else if !env.returncodeZero then
      r.events ++
        [Event.errorEv
          (if r.has_error && r.error_message.isSome then "UNKNOWN_ERROR".toList
           else classifyExitCode r.stderr_lines)]
    else
      r.events ++
        (match r.destination with
         | some d =>
           if !d.isEmpty && env.fileExistsFn d then [Event.doneEv]
           else
             match env.newestMedia with
             | some _ => [Event.doneEv]
             | none => [Event.errorEv ("FILE_NOT_FOUND".toList)]
         | none =>
           match env.newestMedia with
           | some _ => [Event.doneEv]
           | none => [Event.errorEv ("FILE_NOT_FOUND".toList)])

/-- The IPC frames of `handle_youtube_download`: missing-URL check, the
`preparing` frame, then `_execute_download` (whose own `try` catches every
exception of the run). -/
def handle_youtube_download_events (urlEmpty : Bool) (env : ExecEnv) : List Event :=
  if urlEmpty then [Event.errorEv ("INVALID_URL".toList)]
  else Event.progressEv 0 ("preparing".toList) :: execute_download_events env

/-- `(\d+)/(\d+)` at the head of the list. -/
def tryFracAt (l : List Char) : Option (Nat × Nat) :=
  let d1 := l.takeWhile Char.isDigit
  if d1.isEmpty then none
  else
    match l.drop d1.length with
    | '/' :: r2 =>
      let d2 := r2.takeWhile Char.isDigit
      if d2.isEmpty then none else some (digitsToNat d1, digitsToNat d2)
    | _ => none

/-- `re.search(r'(\d+)/(\d+)', line)` : leftmost match. -/
def fracSearch : List Char → Option (Nat × Nat)
  | [] => none
  | c :: cs =>
    match tryFracAt (c :: cs) with
    | some r => some r
    | none => fracSearch cs

/-- One flat-playlist entry (`id`, `title`). -/
structure PlaylistEntry where
  id : List Char
  title : List Char

/-- The fields of the playlist metadata the handler reads. -/
structure PlaylistInfo where
  title : List Char
  entries : List PlaylistEntry
  playlist_count : Option Nat
  entry_count : Nat

/-- `playlist_info.get('playlist_count') or len(entries) or
playlist_info.get('entry_count', 0)` (Python truthiness chain). -/
def totalTracks (info : PlaylistInfo) : Nat :=
  match info.playlist_count with
  | some n =>
    if n ≠ 0 then n
    else if info.entries.length ≠ 0 then info.entries.length else info.entry_count
  | none =>
    if info.entries.length ≠ 0 then info.entries.length else info.entry_count

/-- The `read_output` loop of `_download_playlist_tracks`: track counter
from `(\d+)/(\d+)` on `Downloading … of` lines, overall percent
`track_number / max(total,1) * 100` (integer division models the float
truncation), one `downloading_playlist` frame per unthrottled progress
result; the C4 `TypeError` ends the loop. -/
def playlistReadGo (c : StreamProgressCollector) (trackNumber total : Nat)
    (evs : List Event) : List (List Char) → List Event
  | [] => evs
  | raw :: rest =>
    let line := pyStrip raw
    if line.isEmpty then playlistReadGo c trackNumber total evs rest
    else
      let tn :=
        if containsSub ("Downloading".toList) line && containsSub ("of".toList) line then
          match fracSearch line with
          | some (a, _) => a
          | none => trackNumber
        else trackNumber
      match c.process_line line with
      | .error _ => evs
      | .ok (some result, c') =>
        if result.progressDict.isSome then
          playlistReadGo c' tn total
            (evs ++ [Event.progressEv (min 100 (tn * 100 / max total 1))
              ("downloading_playlist".toList)]) rest
        else playlistReadGo c' tn total evs rest
      | .ok (none, c') => playlistReadGo c' tn total evs rest

/-- Pre-scan accumulator: (`skipped_count`, `cached_files` as
(path, display title), `unfindable_ids` as a set). -/
def prescanStep (db1 : ArchiveDb) (fe : List Char → Bool)
    (archivedIds : List (List Char))
    (acc : Nat × List (List Char × List Char) × List (List Char))
    (e : PlaylistEntry) : Nat × List (List Char × List Char) × List (List Char) :=
  if archivedIds.contains e.id then
    match dbLookup db1 e.id with
    | some row =>
      if !row.physical_path.isEmpty && fe row.physical_path then
        (acc.1 + 1,
          acc.2.1 ++ [(row.physical_path,
            if row.title.isEmpty then e.title else row.title)],
          acc.2.2)
      else
        (acc.1 + 1, acc.2.1,
          if acc.2.2.contains e.id then acc.2.2 else acc.2.2 ++ [e.id])
    | none =>
      (acc.1 + 1, acc.2.1,
        if acc.2.2.contains e.id then acc.2.2 else acc.2.2 ++ [e.id])
  else acc

/-- The ids recorded in the (validated) archive lines: `parts[1]` of every
line with at least two whitespace-separated fields. -/
def archivedIdsOf (lines : List (List Char)) : List (List Char) :=
  (lines.filterMap fun line =>
    let parts := pySplitWs (pyStrip line)
    if 2 ≤ parts.length then some (parts.getD 1 []) else none)

/-- Branch outcomes of one `handle_playlist_download` run. -/
structure PlaylistEnv where
  urlEmpty : Bool := false
  infoResult : Except (List Char) (Option PlaylistInfo) := .ok none
  archivePath : Option (List Char) := none
  archiveExists : Bool := false
  archiveLines : List (List Char) := []
  db : ArchiveDb := ⟨[], []⟩
  fe : List Char → Bool := fun _ => false
  validateRaises : Bool := false
  raiseCode : List Char := "UNKNOWN_ERROR".toList
  playlist_end : Option Nat := none
  getsize : List Char → Option Nat := fun _ => none
  downloadedFiles : List (List Char) := []
  trackLines : List (List Char) := []

/-- `params.get('playlist_end')` truthiness. -/
def peTruthy (pe : Option Nat) : Bool :=
  match pe with
  | some n => n ≠ 0
  | none => false

/-- Emissions of the playlist handler after the pre-scan: cached
short-circuit, batch-download progress, the nothing-downloaded error, or
the finalizing/completed frames and the `done` response. -/
def playlistPhase2 (env : PlaylistEnv) (info : PlaylistInfo)
    (preEvents : List Event) (skipped : Nat)
    (cached : List (List Char × List Char)) (effective : Nat) : List Event :=
  if !info.entries.isEmpty && effective ≤ skipped && effective ≤ cached.length then
    preEvents ++ [Event.doneEv]
  else
    let trackEvents := playlistReadGo {} 0 (totalTracks info) [] env.trackLines
    preEvents ++ trackEvents ++
    (if cached.isEmpty && env.downloadedFiles.isEmpty then
      [Event.errorEv ("UNKNOWN_ERROR".toList)]
    else
      Event.progressEv 95 ("finalizing".toList) ::
      (if ((cached.filterMap fun cf =>
            if env.fe cf.1 then (env.getsize cf.1).map fun _ => cf.1
            else none) ++
          (env.downloadedFiles.filterMap fun fp =>
            if env.fe fp then (env.getsize fp).map fun _ => fp else none)).isEmpty then
        [Event.doneEv]
      else [Event.progressEv 100 ("completed".toList), Event.doneEv]))

/-- The IPC frames of `handle_playlist_download`, in emission order, over
every execution path: missing URL, metadata failure, archive-validation
exception, pre-scan frame, cached short-circuit, batch download progress,
nothing-downloaded error, finalizing/completed frames and the `done`
response. -/
def handle_playlist_download_events (env : PlaylistEnv) : List Event :=
  if env.urlEmpty then [Event.errorEv ("INVALID_URL".toList)]
  else
    Event.progressEv 0 ("preparing".toList) ::
    (match env.infoResult with
     | .error _ => [Event.errorEv ("PLAYLIST_ERROR".toList)]
     | .ok none => [Event.errorEv ("UNKNOWN_ERROR".toList)]
     | .ok (some info) =>
       if env.archivePath.isSome && env.archiveExists && env.validateRaises then
         [Event.errorEv env.raiseCode]
       else
         let validated :=
           if env.archivePath.isSome && env.archiveExists then
             validate_archive env.fe env.db env.archiveLines
           else (env.db, env.archiveLines, 0)
         let doPrescan := env.archivePath.isSome && env.archiveExists &&
           !info.entries.isEmpty
         let scanEntries :=
           if peTruthy env.playlist_end then
             info.entries.take (env.playlist_end.getD 0)
           else info.entries
         let pre :=
           if doPrescan then
             scanEntries.foldl
               (prescanStep validated.1 env.fe (archivedIdsOf validated.2.1))
               (0, [], [])
           else (0, [], [])
         let skipped := pre.1 - pre.2.2.length
         let cached := pre.2.1
         let preEvents :=
           if doPrescan && skipped ≠ 0 then
             [Event.progressEv 5
               ("pre_scan:".toList ++ (toString skipped).toList ++ "_cached".toList)]
           else []
         let effective :=
           if peTruthy env.playlist_end && !info.entries.isEmpty then
             min info.entries.length (env.playlist_end.getD 0)
           else info.entries.length
         playlistPhase2 env info preEvents skipped cached effective)

/-- A trace containing no terminal event. -/
def nonTerminal (evs : List Event) : Bool :=
  evs.all fun e => !e.isTerminal

/-- The terminal-event discipline: the trace is a (possibly empty) run of
non-terminal frames followed by exactly one terminal frame, which is last. -/
def oneTerminalLast (evs : List Event) : Prop :=
  ∃ t p, evs = p ++ [t] ∧ t.isTerminal = true ∧ nonTerminal p = true

lemma oneTerminalLast_shape {p : List Event} {t : Event}
    (ht : t.isTerminal = true) (hp : nonTerminal p = true) :
    oneTerminalLast (p ++ [t]) :=
  ⟨t, p, rfl, ht, hp⟩

lemma oneTerminalLast_single {t : Event} (ht : t.isTerminal = true) :
    oneTerminalLast [t] :=
  ⟨t, [], rfl, ht, rfl⟩

lemma nonTerminal_append {a b : List Event} (ha : nonTerminal a = true)
    (hb : nonTerminal b = true) : nonTerminal (a ++ b) = true := by
  simp only [nonTerminal, List.all_append, Bool.and_eq_true]
  exact ⟨ha, hb⟩

lemma oneTerminalLast_append_prefix {P E : List Event}
    (hP : nonTerminal P = true) (hE : oneTerminalLast E) :
    oneTerminalLast (P ++ E) := by
  obtain ⟨t, p, rfl, ht, hp⟩ := hE
  exact ⟨t, P ++ p, by rw [List.append_assoc], ht, nonTerminal_append hP hp⟩

lemma oneTerminalLast_cons {e : Event} {E : List Event}
    (he : e.isTerminal = false) (hE : oneTerminalLast E) :
    oneTerminalLast (e :: E) := by
  have := oneTerminalLast_append_prefix (P := [e])
    (by simp [nonTerminal, he]) hE
  simpa using this

lemma nonTerminal_take {l : List Event} (n : Nat)
    (h : nonTerminal l = true) : nonTerminal (l.take n) = true := by
  simp only [nonTerminal, List.all_eq_true] at h ⊢
  intro e he
  exact h e (List.mem_of_mem_take he)

lemma readProgressResult_nonTerminal (acc : ReadAcc) (r : PyResult)
    (h : nonTerminal acc.events = true) :
    nonTerminal (readProgressResult acc r).events = true := by
  rcases hpd : r.progressDict with _ | d <;>
    rcases hdst : r.destination with _ | p <;>
      rcases herr : r.error with _ | m <;>
        cases hdn : r.done <;>
          simp only [readProgressResult, hpd, hdst, herr, hdn,
            Bool.false_eq_true, if_false, if_true] <;>
          first
            | exact h
            | exact nonTerminal_append h rfl
            | exact nonTerminal_append (nonTerminal_append h rfl) rfl

lemma execReadGo_nonTerminal : ∀ (lines : List (List Char))
    (c : StreamProgressCollector) (acc : ReadAcc),
    nonTerminal acc.events = true →
    nonTerminal (execReadGo c acc lines).events = true := by
  intro lines
  induction lines with
  | nil => intro c acc h; exact h
  | cons raw rest ih =>
    intro c acc h
    simp only [execReadGo]
    by_cases hemp : (pyStrip raw).isEmpty = true
    · simp only [hemp, if_true]
      exact ih c acc h
    · simp only [hemp, Bool.false_eq_true, if_false]
      cases hpl : c.process_line (pyStrip raw) with
      | error e => exact h
      | ok v =>
        obtain ⟨res?, c'⟩ := v
        cases res? with
        | none => exact ih c' _ h
        | some result => exact ih c' _ (readProgressResult_nonTerminal _ _ h)

lemma read_progressRun_nonTerminal (lines : List (List Char)) (b : Bool) :
    nonTerminal (read_progressRun lines b).events = true := by
  cases b <;>
    simp only [read_progressRun, Bool.false_eq_true, if_false, if_true] <;>
    exact execReadGo_nonTerminal lines {} {} rfl

lemma execute_download_events_discipline (env : ExecEnv) :
    oneTerminalLast (execute_download_events env) := by
  by_cases hs : env.spawnRaises = true
  · simp only [execute_download_events, hs, if_true]
    exact oneTerminalLast_single rfl
  · by_cases ho : env.outerTimesOut = true
    · simp only [execute_download_events, hs, ho, Bool.false_eq_true, if_false, if_true]
      exact oneTerminalLast_shape rfl
        (nonTerminal_take _ (read_progressRun_nonTerminal _ _))
    · by_cases hr : env.returncodeZero = true
      · simp only [execute_download_events, hs, ho, hr, Bool.false_eq_true,
          if_false, Bool.not_true, Bool.not_false, if_true]
        cases hdst : (read_progressRun env.lines env.innerTimesOut).destination with
        | none =>
          cases hnm : env.newestMedia with
          | none =>
            simp only [hdst, hnm]
            exact oneTerminalLast_shape rfl (read_progressRun_nonTerminal _ _)
          | some f =>
            simp only [hdst, hnm]
            exact oneTerminalLast_shape rfl (read_progressRun_nonTerminal _ _)
        | some d =>
          simp only [hdst]
          by_cases hde : (!d.isEmpty && env.fileExistsFn d) = true
          · simp only [hde, if_true]
            exact oneTerminalLast_shape rfl (read_progressRun_nonTerminal _ _)
          · simp only [hde, Bool.false_eq_true, if_false]
            cases hnm : env.newestMedia with
            | none => exact oneTerminalLast_shape rfl (read_progressRun_nonTerminal _ _)
            | some f => exact oneTerminalLast_shape rfl (read_progressRun_nonTerminal _ _)
      · simp only [execute_download_events, hs, ho, hr, Bool.false_eq_true,
          if_false, Bool.not_false, if_true]
        exact oneTerminalLast_shape rfl (read_progressRun_nonTerminal _ _)

lemma playlistReadGo_nonTerminal : ∀ (lines : List (List Char))
    (c : StreamProgressCollector) (tn total : Nat) (evs : List Event),
    nonTerminal evs = true →
    nonTerminal (playlistReadGo c tn total evs lines) = true := by
  intro lines
  induction lines with
  | nil => intro c tn total evs h; exact h
  | cons raw rest ih =>
    intro c tn total evs h
    simp only [playlistReadGo]
    by_cases hemp : (pyStrip raw).isEmpty = true
    · simp only [hemp, if_true]
      exact ih c tn total evs h
    · simp only [hemp, Bool.false_eq_true, if_false]
      cases hpl : c.process_line (pyStrip raw) with
      | error e => exact h
      | ok v =>
        obtain ⟨res?, c'⟩ := v
        cases res? with
        | none => exact ih c' _ _ _ h
        | some result =>
          by_cases hpd : result.progressDict.isSome = true
          · simp only [hpd, if_true]
            exact ih c' _ _ _ (nonTerminal_append h rfl)
          · simp only [hpd, Bool.false_eq_true, if_false]
            exact ih c' _ _ _ h

lemma preEvents_nonTerminal (b : Bool) (s : List Char) :
    nonTerminal (if b then [Event.progressEv 5 s] else []) = true := by
  cases b <;> rfl

lemma playlistPhase2_discipline (env : PlaylistEnv) (info : PlaylistInfo)
    (preEvents : List Event) (skipped : Nat)
    (cached : List (List Char × List Char)) (effective : Nat)
    (hpre : nonTerminal preEvents = true) :
    oneTerminalLast (playlistPhase2 env info preEvents skipped cached effective) := by
  unfold playlistPhase2
  split
  · exact oneTerminalLast_shape rfl hpre
  · split
    · rw [List.append_assoc]
      apply oneTerminalLast_append_prefix hpre
      exact oneTerminalLast_shape rfl (playlistReadGo_nonTerminal _ {} 0 _ [] rfl)
    · rw [List.append_assoc]
      apply oneTerminalLast_append_prefix hpre
      apply oneTerminalLast_append_prefix (playlistReadGo_nonTerminal _ {} 0 _ [] rfl)
      refine oneTerminalLast_cons ?_ ?_
      · rfl
      · split
        · exact oneTerminalLast_single rfl
        · exact oneTerminalLast_cons rfl (oneTerminalLast_single rfl)

lemma handle_playlist_download_events_discipline (env : PlaylistEnv) :
    oneTerminalLast (handle_playlist_download_events env) := by
  by_cases hu : env.urlEmpty = true
  · simp only [handle_playlist_download_events, hu, if_true]
    exact oneTerminalLast_single rfl
  · simp only [handle_playlist_download_events, hu, Bool.false_eq_true, if_false]
    refine oneTerminalLast_cons ?_ ?_
    · rfl
    cases hinfo : env.infoResult with
    | error e => exact oneTerminalLast_single rfl
    | ok info? =>
      cases info? with
      | none => exact oneTerminalLast_single rfl
      | some info =>
        by_cases hval :
            (env.archivePath.isSome && env.archiveExists && env.validateRaises) = true
        · simp only [hval, if_true]
          exact oneTerminalLast_single rfl
        · simp only [hval, Bool.false_eq_true, if_false]
          exact playlistPhase2_discipline _ _ _ _ _ _ (preEvents_nonTerminal _ _)

/-- **C6**: for both download actions (`youtube_dl` and `playlist`), every
execution path of the handler — including timeout, nonzero child exit,
missing file and exception paths — emits a run of non-terminal frames
followed by exactly one terminal event (`done` or `error`), which is the
last frame; in particular all progress frames for the task precede the
terminal frame. -/
theorem C6_exactly_one_terminal_event :
    (∀ (urlEmpty : Bool) (env : ExecEnv),
      oneTerminalLast (handle_youtube_download_events urlEmpty env)) ∧
    (∀ env : PlaylistEnv, oneTerminalLast (handle_playlist_download_events env)) := by
  constructor
  · intro urlEmpty env
    by_cases hu : urlEmpty = true
    · simp only [handle_youtube_download_events, hu, if_true]
      exact oneTerminalLast_single rfl
    · simp only [handle_youtube_download_events, hu, Bool.false_eq_true, if_false]
      exact oneTerminalLast_cons rfl (execute_download_events_discipline env)
  · exact handle_playlist_download_events_discipline

/-!
## Storage pool and repair service (`worker/storage.py`,
`worker/repair_service.py`)

The filesystem is a path-indexed store of nodes (regular file with size,
or symlink holding its stored target string); `os.path` arithmetic
(`dirname`, `normpath(join(..))`, `relpath`) is an opaque parameter record,
as it is standard-library code outside this repository.  `os.path.exists`
follows a link one level (links this system creates point directly at pool
files).  Directories are not modelled (`makedirs` cannot fail in these
paths).
-/

/-- A filesystem node. -/
inductive FsNode where
  | file (size : Nat)
  | link (target : List Char)
deriving DecidableEq

/-- `user_symlinks` row as the repair/storage paths see it (`id` is the
rowid used by the orphan cleanup's DELETE). -/
structure USRow where
  id : Nat
  user_chat_id : Nat
  file_hash_sha1 : List Char
  symlink_path : List Char
deriving DecidableEq

/-- `file_storage` row as the storage path writes it. -/
structure StorageRow where
  file_hash_sha1 : List Char
  physical_path : List Char
  file_size_bytes : Nat
  file_extension : List Char
  youtube_url : List Char
  title : List Char
  is_protected : Bool
deriving DecidableEq

/-- `dedup_file_metadata`-style row holding the corruption counter. -/
structure FMRow where
  file_hash_sha1 : List Char
  corruption_checks : Nat
deriving DecidableEq

/-- Filesystem plus the three tables. -/
structure World where
  nodes : List (List Char × FsNode)
  file_storage : List StorageRow
  user_symlinks : List USRow
  file_metadata : List FMRow

/-- Opaque `os.path` arithmetic. -/
structure PathOps where
  dirname : List Char → List Char
  joinNorm : List Char → List Char → List Char
  relpath : List Char → List Char → List Char

/-- The node at a path. -/
def World.node (w : World) (p : List Char) : Option FsNode :=
  w.nodes.lookup p

/-- `os.path.islink`. -/
def World.islink (w : World) (p : List Char) : Bool :=
  match w.node p with
  | some (.link _) => true
  | _ => false

/-- `os.path.exists` (follows a link one level). -/
def World.pathExists (ops : PathOps) (w : World) (p : List Char) : Bool :=
  match w.node p with
  | some (.file _) => true
  | some (.link t) =>
    match w.node (ops.joinNorm (ops.dirname p) t) with
    | some (.file _) => true
    | _ => false
  | none => false

/-- `os.path.getsize` through a link (0 is an unreachable fallback on the
paths the code takes it on). -/
def World.sizeAt (ops : PathOps) (w : World) (p : List Char) : Nat :=
  match w.node p with
  | some (.file s) => s
  | some (.link t) =>
    match w.node (ops.joinNorm (ops.dirname p) t) with
    | some (.file s) => s
    | _ => 0
  | none => 0

/-- `os.remove` / `os.unlink`. -/
def World.removeNode (w : World) (p : List Char) : World :=
  { w with nodes := w.nodes.filter fun e => !(e.1 == p) }

/-- Creating or overwriting the node at a path. -/
def World.setNode (w : World) (p : List Char) (n : FsNode) : World :=
  { w with nodes := (p, n) :: w.nodes.filter fun e => !(e.1 == p) }

/-- `SymlinkRepairService._repair_broken_symlink` on a broken link:
recreate from the stored target if it resolves, else from the database's
`physical_path` if that file exists, else delete the `user_symlinks` row
and the link file.  Returns (world, repaired?). -/
def repairBrokenSymlink (ops : PathOps) (w : World) (p : List Char) :
    World × Bool :=
  match w.node p with
  | some (.link target) =>
    if w.pathExists ops (ops.joinNorm (ops.dirname p) target) then
      ((w.removeNode p).setNode p (.link target), true)
    else
      match w.user_symlinks.find? (fun r => r.symlink_path == p) with
      | some us =>
        match w.file_storage.find? (fun r => r.file_hash_sha1 == us.file_hash_sha1) with
        | some row =>
          if w.pathExists ops row.physical_path then
            ((w.removeNode p).setNode p
              (.link (ops.relpath row.physical_path (ops.dirname p))), true)
          else
            (({ w with user_symlinks :=
                w.user_symlinks.filter fun r => !(r.symlink_path == p) }).removeNode p,
              false)
        | none =>
          (({ w with user_symlinks :=
              w.user_symlinks.filter fun r => !(r.symlink_path == p) }).removeNode p,
            false)
      | none =>
        (({ w with user_symlinks :=
            w.user_symlinks.filter fun r => !(r.symlink_path == p) }).removeNode p,
          false)
  | _ => (w, false)

/-- One path visited by the `scan_and_repair` walk: directories whose name
contains `.storage` are skipped, healthy links are left alone, broken
links are repaired or removed. -/
def scanStep (ops : PathOps) (w : World) (p : List Char) : World :=
  if containsSub (".storage".toList) (ops.dirname p) then w
  else if w.islink p then
    if w.pathExists ops p then w else (repairBrokenSymlink ops w p).1
  else w

/-- `SymlinkRepairService.scan_and_repair` over the walk of the download
tree (every node path, in store order). -/
def scan_and_repair (ops : PathOps) (w : World) : World :=
  (w.nodes.map (·.1)).foldl (scanStep ops) w

/-- What `detect_corruption` learns about one pool hash directory:
`original_file.*` size on disk, and the sidecar's parsed `size` (`none` =
no metadata file, `some none` = invalid JSON). -/
structure PoolView where
  poolHashes : List (List Char)
  origSize : List Char → Option Nat
  metaSize : List Char → Option (Option Nat)

/-- One hash directory of `detect_corruption`: on a size mismatch, bump
`corruption_checks` on the matching metadata rows; nothing else changes. -/
def detectStep (pv : PoolView) (w : World) (h : List Char) : World :=
  match pv.origSize h, pv.metaSize h with
  | some actual, some (some expected) =>
    if actual ≠ expected then
      { w with file_metadata := w.file_metadata.map fun r =>
          if r.file_hash_sha1 == h then
            { r with corruption_checks := r.corruption_checks + 1 }
          else r }
    else w
  | _, _ => w

/-- `SymlinkRepairService.detect_corruption`. -/
def detect_corruption (pv : PoolView) (w : World) : World :=
  pv.poolHashes.foldl (detectStep pv) w

/-- `SymlinkRepairService.cleanup_orphaned_entries` : delete `user_symlinks`
rows whose path neither exists nor is a link. -/
def cleanup_orphaned_entries (ops : PathOps) (w : World) : World :=
  { w with user_symlinks := w.user_symlinks.filter fun r =>
      w.pathExists ops r.symlink_path || w.islink r.symlink_path }

/-- One repair pass over all three operations. -/
def repairCycle (ops : PathOps) (pv : PoolView) (w : World) : World :=
  cleanup_orphaned_entries ops (detect_corruption pv (scan_and_repair ops w))

lemma lookup_filter_keyne (p q : List Char) :
    ∀ l : List (List Char × FsNode),
    (l.filter fun e => !(e.1 == p)).lookup q = if q = p then none else l.lookup q := by
  intro l
  induction l with
  | nil => by_cases h : q = p <;> simp [h]
  | cons e es ih =>
    obtain ⟨k, v⟩ := e
    by_cases hk : k = p
    · subst hk
      by_cases hq : q = k
      · subst hq
        simp [List.filter_cons, List.lookup, ih]
      · simp [List.filter_cons, List.lookup, ih, hq, beq_eq_false_iff_ne.mpr hq]
    · by_cases hq : q = k
      · subst hq
        have hqp : ¬ q = p := hk
        simp [List.filter_cons, List.lookup, beq_eq_false_iff_ne.mpr hk, hqp]
      · simp [List.filter_cons, List.lookup, beq_eq_false_iff_ne.mpr hk,
          beq_eq_false_iff_ne.mpr hq, ih]

lemma node_removeNode (w : World) (p q : List Char) :
    (w.removeNode p).node q = if q = p then none else w.node q := by
  simp only [World.removeNode, World.node]
  exact lookup_filter_keyne p q w.nodes

lemma node_setNode (w : World) (p q : List Char) (n : FsNode) :
    (w.setNode p n).node q = if q = p then some n else w.node q := by
  simp only [World.setNode, World.node, List.lookup]
  by_cases hq : q = p
  · simp [hq]
  · rw [beq_eq_false_iff_ne.mpr hq, if_neg hq]
    have := lookup_filter_keyne p q w.nodes
    rw [if_neg hq] at this
    exact this

/-- The repair relation: regular-file nodes are untouched (any path
holding a file before or after is unchanged), `file_storage` is unchanged,
and `user_symlinks` rows only disappear. -/
def repairOk (w w' : World) : Prop :=
  (∀ q s, (w.node q = some (.file s) ∨ w'.node q = some (.file s)) →
    w'.node q = w.node q) ∧
  w'.file_storage = w.file_storage ∧
  (∀ r ∈ w'.user_symlinks, r ∈ w.user_symlinks)

lemma repairOk_refl (w : World) : repairOk w w :=
  ⟨fun _ _ _ => rfl, rfl, fun _ h => h⟩

lemma repairOk_trans {w1 w2 w3 : World} (h12 : repairOk w1 w2)
    (h23 : repairOk w2 w3) : repairOk w1 w3 := by
  obtain ⟨hn12, hf12, hu12⟩ := h12
  obtain ⟨hn23, hf23, hu23⟩ := h23
  refine ⟨?_, hf23.trans hf12, fun r h => hu12 r (hu23 r h)⟩
  intro q s hqs
  rcases hqs with h1 | h3
  · have e12 := hn12 q s (Or.inl h1)
    have e23 := hn23 q s (Or.inl (e12.trans h1))
    exact e23.trans e12
  · have e23 := hn23 q s (Or.inr h3)
    have e12 := hn12 q s (Or.inr (e23.symm.trans h3))
    exact e23.trans e12

lemma repairBroken_link_node {w : World} {p : List Char} {t : List Char}
    (hp : w.node p = some (.link t)) (n : FsNode) (q : List Char) (s : Nat)
    (h : w.node q = some (.file s) ∨ ((w.removeNode p).setNode p n).node q = some (.file s))
    (hn : ∀ s', n ≠ .file s') :
    ((w.removeNode p).setNode p n).node q = w.node q := by
  rw [node_setNode, node_removeNode]
  by_cases hq : q = p
  · subst hq
    rcases h with h1 | h2
    · rw [hp] at h1; cases h1
    · rw [node_setNode, if_pos rfl] at h2
      injection h2 with h2
      exact absurd h2 (hn s)
  · simp [hq]

/-- The removal world shared by the fall-through branches of
`_repair_broken_symlink`. -/
def removalWorld (w : World) (p : List Char) : World :=
  ({ w with user_symlinks :=
      w.user_symlinks.filter fun r => !(r.symlink_path == p) }).removeNode p

lemma removalWorld_node (w : World) (p q : List Char) :
    (removalWorld w p).node q = if q = p then none else w.node q := by
  have h1 : (removalWorld w p).node q =
      (w.removeNode p).node q := rfl
  rw [h1]
  exact node_removeNode w p q

lemma removalWorld_repairOk {w : World} {p : List Char} {t : List Char}
    (hp : w.node p = some (.link t)) : repairOk w (removalWorld w p) := by
  refine ⟨?_, rfl, fun r h => (List.mem_filter.mp h).1⟩
  intro q s h
  rw [removalWorld_node]
  by_cases hq : q = p
  · subst hq
    rcases h with h1 | h2
    · rw [hp] at h1; cases h1
    · rw [removalWorld_node, if_pos rfl] at h2; cases h2
  · simp [hq]

lemma repairBroken_repairOk (ops : PathOps) (w : World) (p : List Char) :
    repairOk w (repairBrokenSymlink ops w p).1 := by
  cases hp : w.node p with
  | none => simp only [repairBrokenSymlink, hp]; exact repairOk_refl w
  | some n0 =>
    cases n0 with
    | file s0 => simp only [repairBrokenSymlink, hp]; exact repairOk_refl w
    | link target =>
      by_cases hres : w.pathExists ops (ops.joinNorm (ops.dirname p) target) = true
      · simp only [repairBrokenSymlink, hp, hres, if_true]
        refine ⟨?_, rfl, fun r h => h⟩
        intro q s h
        exact repairBroken_link_node hp _ q s h (fun s' hh => by cases hh)
      · cases hus : w.user_symlinks.find? (fun r => r.symlink_path == p) with
        | none =>
          simp only [repairBrokenSymlink, hp, hres, hus, Bool.false_eq_true, if_false]
          exact removalWorld_repairOk hp
        | some us =>
          cases hrow : w.file_storage.find?
              (fun r => r.file_hash_sha1 == us.file_hash_sha1) with
          | none =>
            simp only [repairBrokenSymlink, hp, hres, hus, hrow,
              Bool.false_eq_true, if_false]
            exact removalWorld_repairOk hp
          | some row =>
            by_cases hpe : w.pathExists ops row.physical_path = true
            · simp only [repairBrokenSymlink, hp, hres, hus, hrow, hpe,
                Bool.false_eq_true, if_false, if_true]
              refine ⟨?_, rfl, fun r h => h⟩
              intro q s h
              exact repairBroken_link_node hp _ q s h (fun s' hh => by cases hh)
            · simp only [repairBrokenSymlink, hp, hres, hus, hrow, hpe,
                Bool.false_eq_true, if_false]
              exact removalWorld_repairOk hp

lemma scanStep_repairOk (ops : PathOps) (w : World) (p : List Char) :
    repairOk w (scanStep ops w p) := by
  unfold scanStep
  split
  · exact repairOk_refl w
  · split
    · split
      · exact repairOk_refl w
      · exact repairBroken_repairOk ops w p
    · exact repairOk_refl w

lemma foldl_scanStep_repairOk (ops : PathOps) :
    ∀ (ps : List (List Char)) (w : World), repairOk w (ps.foldl (scanStep ops) w) := by
  intro ps
  induction ps with
  | nil => intro w; exact repairOk_refl w
  | cons p ps ih =>
    intro w
    exact repairOk_trans (scanStep_repairOk ops w p) (ih (scanStep ops w p))

lemma scan_and_repair_repairOk (ops : PathOps) (w : World) :
    repairOk w (scan_and_repair ops w) :=
  foldl_scanStep_repairOk ops _ w

lemma detectStep_repairOk (pv : PoolView) (w : World) (h : List Char) :
    repairOk w (detectStep pv w h) := by
  unfold detectStep
  split
  · split
    · exact ⟨fun _ _ _ => rfl, rfl, fun _ hh => hh⟩
    · exact repairOk_refl w
  · exact repairOk_refl w

lemma detect_corruption_repairOk (pv : PoolView) :
    ∀ (hs : List (List Char)) (w : World), repairOk w (hs.foldl (detectStep pv) w) := by
  intro hs
  induction hs with
  | nil => intro w; exact repairOk_refl w
  | cons h hs ih =>
    intro w
    exact repairOk_trans (detectStep_repairOk pv w h) (ih (detectStep pv w h))

lemma cleanup_repairOk (ops : PathOps) (w : World) :
    repairOk w (cleanup_orphaned_entries ops w) :=
  ⟨fun _ _ _ => rfl, rfl, fun _ h => (List.mem_filter.mp h).1⟩

/-- **C9**: no repair operation (symlink scan/repair, corruption
detection, orphan cleanup) ever deletes a pool entry: every regular-file
node (in particular every pool file under `.storage/tracks`) and every
`file_storage` row survives a full repair cycle unchanged, and the only
database rows that can disappear are `user_symlinks` rows. -/
theorem C9_repair_never_deletes_pool :
    ∀ (ops : PathOps) (pv : PoolView) (w : World),
      (∀ q s, w.node q = some (.file s) → (repairCycle ops pv w).node q = some (.file s)) ∧
      (∀ q s, (w.node q = some (.file s) ∨
          (repairCycle ops pv w).node q = some (.file s)) →
        (repairCycle ops pv w).node q = w.node q) ∧
      (repairCycle ops pv w).file_storage = w.file_storage ∧
      (∀ r ∈ (repairCycle ops pv w).user_symlinks, r ∈ w.user_symlinks) := by
  intro ops pv w
  have h : repairOk w (repairCycle ops pv w) := by
    unfold repairCycle
    exact repairOk_trans (scan_and_repair_repairOk ops w)
      (repairOk_trans (detect_corruption_repairOk pv _ _)
        (cleanup_repairOk ops _))
  obtain ⟨hn, hf, hu⟩ := h
  refine ⟨?_, hn, hf, hu⟩
  intro q s hq
  rw [hn q s (Or.inl hq)]
  exact hq

/-- Trivial path arithmetic for concrete witnesses. -/
def c9Ops : PathOps := ⟨fun _ => [], fun _ b => b, fun a _ => a⟩

/-- Empty pool view for concrete witnesses. -/
def c9Pv : PoolView := ⟨[], fun _ => none, fun _ => none⟩

/-- One pool file on disk. -/
def c9World : World :=
  ⟨[("/downloads/.storage/tracks/h1/original_file.mp3".toList, .file 5)], [], [], []⟩

/-- Witness for C9: a concrete pool file survives the repair cycle. -/
theorem C9_repair_never_deletes_pool_witness :
    (repairCycle c9Ops c9Pv c9World).node
      ("/downloads/.storage/tracks/h1/original_file.mp3".toList) =
      some (.file 5) :=
  (C9_repair_never_deletes_pool c9Ops c9Pv c9World).1
    ("/downloads/.storage/tracks/h1/original_file.mp3".toList) 5 (by decide)

/-- `x or default` on optional strings (Python truthiness: `None` and the
empty string both fall back). -/
def pyOrStr (o : Option (List Char)) (d : List Char) : List Char :=
  match o with
  | some v => if v.isEmpty then d else v
  | none => d

/-- `Path(source_file).suffix[1:] if Path(source_file).suffix else 'mp3'`. -/
def pyPathExt (source : List Char) : List Char :=
  let base := (source.reverse.takeWhile fun c => !(c == '/')).reverse
  let extRev := base.reverse.takeWhile fun c => !(c == '.')
  if extRev.length < base.length ∧ extRev.length + 1 < base.length ∧ extRev ≠ [] then
    extRev.reverse
  else "mp3".toList

/-- Parameters of one `store_or_link` call that come from outside the
repository: path arithmetic, the SHA-1 of the bytes at a path, and the
rowid SQLite would assign. -/
structure StoreEnv where
  ops : PathOps
  hashOf : List Char → List Char
  freshId : Nat

/-- `StorageManager._create_symlink` : remove any existing target, create
the relative link, `INSERT OR REPLACE` the `user_symlinks` row (keyed by
`symlink_path`). -/
def create_symlink (env : StoreEnv) (w : World)
    (pool_file target file_hash : List Char) (user_chat_id : Nat) : World :=
  let rel := env.ops.relpath pool_file (env.ops.dirname target)
  let w := if w.pathExists env.ops target || w.islink target then w.removeNode target else w
  let w := w.setNode target (.link rel)
  { w with user_symlinks :=
      (w.user_symlinks.filter fun r => !(r.symlink_path == target)) ++
        [⟨env.freshId, user_chat_id, file_hash, target⟩] }

/-- `StorageManager.store_or_link` : early return on a missing source,
else dedup against the pool (existing hash: optional URL upgrade, link or
copy, drop the temp source) or ingest a new hash (move into the pool,
sidecar, `INSERT OR IGNORE` the pool row, then link or copy).  The sidecar
is a file node (its JSON text is not modelled, size 0). -/
def store_or_link (env : StoreEnv) (w : World)
    (storage_root source_file target_path : List Char) (user_chat_id : Nat)
    (youtube_url title : Option (List Char)) (use_symlink : Bool) :
    (Bool × List Char) × World :=
  if !(w.pathExists env.ops source_file) then ((false, target_path), w)
  else
    let file_hash := env.hashOf source_file
    let file_size := w.sizeAt env.ops source_file
    let file_ext := pyPathExt source_file
    let pool_hash_dir := storage_root ++ "/.storage/tracks/".toList ++ file_hash
    let pool_file := pool_hash_dir ++ "/original_file.".toList ++ file_ext
    if w.pathExists env.ops pool_file then
      let w :=
        match youtube_url with
        | some u =>
          if containsSub ("watch?v=".toList) u && !containsSub ("list=".toList) u then
            { w with file_storage := w.file_storage.map fun r =>
                if r.file_hash_sha1 == file_hash && !(r.youtube_url == u) then
                  { r with youtube_url := u }
                else r }
          else w
        | none => w
      if use_symlink then
        ((true, target_path),
          (create_symlink env w pool_file target_path file_hash user_chat_id).removeNode
            source_file)
      else
        ((true, target_path),
          (w.setNode target_path (.file file_size)).removeNode source_file)
    else
      let w := (w.removeNode source_file).setNode pool_file (.file file_size)
      let w := w.setNode (pool_hash_dir ++ "/metadata.json".toList) (.file 0)
      let w :=
        if w.file_storage.any fun r => r.file_hash_sha1 == file_hash then w
        else
          { w with file_storage := w.file_storage ++
              [⟨file_hash, pool_file, file_size, file_ext,
                pyOrStr youtube_url ("unknown".toList),
                pyOrStr title ("unknown".toList), true⟩] }
      if use_symlink then
        ((true, target_path),
          create_symlink env w pool_file target_path file_hash user_chat_id)
      else
        ((true, target_path), w.setNode target_path (.file file_size))

/-- **C10**: when the source file does not exist on disk, `store_or_link`
returns `(False, target_path)` and performs no state change at all: the
world — filesystem nodes (pool files, sidecars, links) and the
`file_storage`/`user_symlinks` tables — is returned untouched. -/
theorem C10_store_or_link_missing_source :
    ∀ (env : StoreEnv) (w : World)
      (storage_root source_file target_path : List Char) (user_chat_id : Nat)
      (youtube_url title : Option (List Char)) (use_symlink : Bool),
      w.pathExists env.ops source_file = false →
      store_or_link env w storage_root source_file target_path user_chat_id
        youtube_url title use_symlink = ((false, target_path), w) := by
  intro env w storage_root source_file target_path user_chat_id youtube_url
    title use_symlink h
  simp [store_or_link, h]

/-- Witness for C10: a concrete world without the source file. -/
theorem C10_store_or_link_missing_source_witness :
    store_or_link ⟨c9Ops, fun _ => [], 1⟩ c9World ("/downloads".toList)
      ("/tmp/missing.mp3".toList) ("/downloads/1/t/song.mp3".toList) 7
      none none true =
      ((false, "/downloads/1/t/song.mp3".toList), c9World) :=
  C10_store_or_link_missing_source ⟨c9Ops, fun _ => [], 1⟩ c9World
    ("/downloads".toList) ("/tmp/missing.mp3".toList)
    ("/downloads/1/t/song.mp3".toList) 7 none none true (by decide)
